import Mathlib

/-!
Verification development for the agent-based securities-settlement simulator
(`Simulator.py`).  The file contains a shallow embedding of the two pipeline
variants found in the source:

* the mesa-based model (`AccountAgent`, `InstitutionAgent`, `InstructionAgent`,
  `TransactionAgent`), and
* the staged "euroclear" model (`Account`, `SettlementInstruction`,
  `CancelInstruction`, `ValidationAgent`, `MatchingAgent`, `ClearingAgent`,
  `PositioningAgent`, `SettlementAgent`).

Python numbers are modelled as exact rationals; Python's `int(x)` conversion is
modelled by truncation towards zero (`pyint`), and a `ZeroDivisionError` or an
`AttributeError` raised by the source is modelled by an `Except.error` result.
Python objects referenced from several queues (accounts, institutions) are
modelled by indices into a list, with mutation expressed as functional update
of that list.  Wall-clock timestamps and csv logging are not modelled; the
structured events and inter-agent messages that the code emits are.
-/

set_option maxHeartbeats 1000000

/-- Truncation towards zero of a rational, the behaviour of Python's `int(x)`
conversion applied to a float.  For nonnegative `x` this is the floor. -/
def pyint (x : ℚ) : ℤ :=
  if 0 ≤ x then x.num / (x.den : ℤ) else -((-x).num / ((-x).den : ℤ))

/-! ## Mesa variant: `AccountAgent`, `InstitutionAgent` (Simulator.py lines 8-113) -/

/-- Mesa `AccountAgent`: cash balance, credit limit and the securities
dictionary (`securityType -> amount`).  The `accountID`, `participant` and
`state` fields and the logging calls do not affect the balance logic and are
omitted. -/
structure AccountAgent where
  cashBalance : ℚ
  creditLimit : ℚ
  securities : List (String × ℚ)
deriving DecidableEq, Repr

/-- First-entry lookup in the securities dictionary, defaulting to 0
(`self.securities.get(securityType, 0)`). -/
def secLookup (l : List (String × ℚ)) (ty : String) : ℚ :=
  match l with
  | [] => 0
  | (k, v) :: rest => if k = ty then v else secLookup rest ty

/-- Dictionary assignment `self.securities[securityType] = v`. -/
def secSet (l : List (String × ℚ)) (ty : String) (v : ℚ) : List (String × ℚ) :=
  match l with
  | [] => [(ty, v)]
  | (k, w) :: rest => if k = ty then (ty, v) :: rest else (k, w) :: secSet rest ty v

/-- Mesa `AccountAgent.checkSufficientCash`. -/
def AccountAgent.checkSufficientCash (a : AccountAgent) (amount : ℚ) : Bool :=
  decide (amount ≤ a.cashBalance + a.creditLimit)

/-- Mesa `AccountAgent.checkSufficientSecurities`. -/
def AccountAgent.checkSufficientSecurities (a : AccountAgent) (ty : String) (amount : ℚ) : Bool :=
  decide (amount ≤ secLookup a.securities ty)

/-- Mesa `AccountAgent.updateSecurities`: rejects (returning 0 and leaving the
account unchanged) when the update would make the holding negative, otherwise
stores the new amount and returns the requested delta. -/
def AccountAgent.updateSecurities (a : AccountAgent) (ty : String) (amount : ℚ) :
    AccountAgent × ℚ :=
  let current := secLookup a.securities ty
  if current + amount < 0 then (a, 0)
  else ({ a with securities := secSet a.securities ty (current + amount) }, amount)

/-- Mesa `AccountAgent.updateCashBalance`: a debit beyond cash plus credit is
rejected (returning 0); a debit that exhausts cash floors the balance at zero
and absorbs the deficit into the credit limit; the requested delta is returned
otherwise. -/
def AccountAgent.updateCashBalance (a : AccountAgent) (amount : ℚ) : AccountAgent × ℚ :=
  let total_available := a.cashBalance + a.creditLimit
  if amount < 0 ∧ total_available + amount < 0 then (a, 0)
  else if 0 ≤ a.cashBalance + amount then
    ({ a with cashBalance := a.cashBalance + amount }, amount)
  else
    let remaining := amount + a.cashBalance
    ({ a with cashBalance := 0, creditLimit := a.creditLimit + remaining }, amount)

/-- Mesa `InstitutionAgent`: only the partial-settlement policy flag
(`allow_partial` in the source) is relevant to the claims. -/
structure InstitutionAgentM where
  partialAllowed : Bool
deriving DecidableEq, Repr

/-- Mesa `InstitutionAgent.opt_out_partial`: clears the flag when it is set,
otherwise only logs an error and leaves it set to `false`-already state
unchanged. -/
def optOutPartialSettlement (i : InstitutionAgentM) : InstitutionAgentM :=
  if i.partialAllowed = false then i else { i with partialAllowed := false }

/-- A ledger operation on a mesa account, for stating the all-times invariant. -/
inductive LedgerOpM where
  | cash (amount : ℚ)
  | sec (ty : String) (amount : ℚ)
deriving DecidableEq, Repr

/-- Apply one mesa ledger operation (discarding the returned amount). -/
def applyOpM (a : AccountAgent) : LedgerOpM → AccountAgent
  | .cash amount => (a.updateCashBalance amount).1
  | .sec ty amount => (a.updateSecurities ty amount).1

/-- Apply a sequence of mesa ledger operations. -/
def applyOpsM (a : AccountAgent) (ops : List LedgerOpM) : AccountAgent :=
  ops.foldl applyOpM a

/-- The account invariant claimed by the specification: cash plus credit limit
is nonnegative, and every security holding is nonnegative. -/
def AccountAgent.invariant (a : AccountAgent) : Prop :=
  0 ≤ a.cashBalance + a.creditLimit ∧ ∀ e ∈ a.securities, 0 ≤ e.2

instance (a : AccountAgent) : Decidable a.invariant := by
  unfold AccountAgent.invariant; infer_instance

/-! ## Mesa variant: `InstructionAgent` and `TransactionAgent` (lines 116-260) -/

/-- Errors corresponding to exceptions the mesa source can raise:
`.attrError` models the `AttributeError` raised by `createChildren`
(`InstructionAgent` has no `model` attribute), `.badRef` a dangling account
reference (impossible in the Python source, where accounts are object
references). -/
inductive MErr where
  | attrError
  | badRef
deriving DecidableEq, Repr

/-- Mesa `InstructionAgent`: role is `"buyer"` or `"seller"`; the account is an
index into the model's account list. -/
structure InstructionAgentM where
  securityType : String
  amount : ℚ
  status : String
  role : String
  accountIdx : Nat
deriving DecidableEq, Repr

/-- Mesa `InstructionAgent.checkCash` (a pure role check). -/
def InstructionAgent.checkCash (i : InstructionAgentM) : Bool := i.role == "buyer"

/-- Mesa `InstructionAgent.checkSecurities` (a pure role check). -/
def InstructionAgent.checkSecurities (i : InstructionAgentM) : Bool := i.role == "seller"

/-- Mesa `InstructionAgent.createChildren`.  In the buyer branch with partial
cash available the source creates the two child objects, debits the account and
then evaluates `self.model.schedule.add(...)`; `InstructionAgent` instances
have no `model` attribute, so this raises `AttributeError` (modelled as
`.error .attrError`, which aborts the run).  In the seller branch the guard
binds `available_securities` to the boolean result of
`checkSufficientSecurities` (which is `False` there), so `False > 0` fails and
nothing happens. -/
def InstructionAgent.createChildren (accs : List AccountAgent) (i : InstructionAgentM) :
    Except MErr (List AccountAgent) :=
  if i.role == "buyer" then
    match accs.get? i.accountIdx with
    | none => .error .badRef
    | some a =>
      if !(a.checkSufficientCash i.amount) then
        let available_cash := a.cashBalance + a.creditLimit
        if 0 < available_cash then .error .attrError
        else .ok accs
      else .ok accs
  else
    .ok accs

/-- Mesa `InstructionAgent.settle` (lines 178-192): a seller debits its own
securities, a buyer debits its own cash and credits its own securities; no
counterparty account is touched.  On success the status becomes `"settled"`. -/
def InstructionAgent.settle (accs : List AccountAgent) (i : InstructionAgentM) :
    Except MErr (List AccountAgent × InstructionAgentM) :=
  if i.role == "seller" then
    match accs.get? i.accountIdx with
    | none => .error .badRef
    | some a =>
      if a.checkSufficientSecurities i.securityType i.amount then
        let r := a.updateSecurities i.securityType (-i.amount)
        .ok (accs.set i.accountIdx r.1, { i with status := "settled" })
      else
        .ok (accs, { i with status := "failed" })
  else if i.role == "buyer" then
    match accs.get? i.accountIdx with
    | none => .error .badRef
    | some a =>
      if a.checkSufficientCash i.amount then
        let r1 := a.updateCashBalance (-i.amount)
        let r2 := r1.1.updateSecurities i.securityType i.amount
        .ok (accs.set i.accountIdx r2.1, { i with status := "settled" })
      else
        match InstructionAgent.createChildren accs i with
        | .error e => .error e
        | .ok accs1 => .ok (accs1, { i with status := "failed" })
  else
    .ok (accs, i)

/-- Mesa `TransactionAgent`: state machine plus the buyer and seller
instructions and the transaction amount. -/
structure TransactionAgentE where
  state : String
  buyer : InstructionAgentM
  seller : InstructionAgentM
  amount : ℚ
deriving DecidableEq, Repr

/-- Mesa `TransactionAgent.settle` (lines 226-247): from `Matched` or
`Partially_Settled`, debits the buyer's cash and the seller's securities by the
transaction amount (no crediting leg exists in the source), then compares the
returned amounts against zero to decide `Settled` versus `Failed`. -/
def TransactionAgent.settle (accs : List AccountAgent) (t : TransactionAgentE) :
    Except MErr (List AccountAgent × TransactionAgentE) :=
  if t.state = "Matched" ∨ t.state = "Partially_Settled" then
    if InstructionAgent.checkCash t.buyer && InstructionAgent.checkSecurities t.seller then
      match accs.get? t.buyer.accountIdx with
      | none => .error .badRef
      | some ab =>
        let rb := ab.updateCashBalance (-t.amount)
        let accs1 := accs.set t.buyer.accountIdx rb.1
        match accs1.get? t.seller.accountIdx with
        | none => .error .badRef
        | some asl =>
          let rs := asl.updateSecurities t.seller.securityType (-t.amount)
          let accs2 := accs1.set t.seller.accountIdx rs.1
          if 0 < rb.2 ∧ 0 < rs.2 then
            .ok (accs2, { t with state := "Settled" })
          else
            .ok (accs2, { t with state := "Failed" })
    else
      match InstructionAgent.createChildren accs t.buyer with
      | .error e => .error e
      | .ok accs1 =>
        match InstructionAgent.createChildren accs1 t.seller with
        | .error e => .error e
        | .ok accs2 => .ok (accs2, { t with state := "Partially_Settled" })
  else
    .ok (accs, t)

/-- Total cash over a list of mesa accounts. -/
def totalCashM (accs : List AccountAgent) : ℚ :=
  (accs.map (fun a => a.cashBalance)).sum

/-- Total holdings of one security type over a list of mesa accounts. -/
def totalSecM (accs : List AccountAgent) (ty : String) : ℚ :=
  (accs.map (fun a => secLookup a.securities ty)).sum

/-! ## Euroclear variant: `Account` (Simulator.py lines 413-426) -/

/-- Euroclear `Account`: balance and minimum balance floor (the `account_type`
string is never consulted by logic and is omitted). -/
structure Account where
  balance : ℚ
  min_balance : ℚ
deriving DecidableEq, Repr

/-- Euroclear `Account.deposit`: unconditional credit. -/
def Account.deposit (a : Account) (amount : ℚ) : Account :=
  { a with balance := a.balance + amount }

/-- Euroclear `Account.check_balance`: `(balance - amount) >= min_balance`. -/
def Account.check_balance (a : Account) (amount : ℚ) : Bool :=
  decide (a.min_balance ≤ a.balance - amount)

/-- Euroclear `Account.withdraw`: debits when `check_balance` passes and
returns `True`; otherwise returns `False` leaving the account unchanged. -/
def Account.withdraw (a : Account) (amount : ℚ) : Bool × Account :=
  if a.check_balance amount then (true, { a with balance := a.balance - amount })
  else (false, a)

/-! ## Euroclear variant: data objects (lines 431-488) -/

/-- Euroclear `SettlementInstruction`.  Institutions are indices into the
model's institution list; the sending and receiving account references set by
the constructor are derivable from the institutions and the leg kind and are
never read by any stage, so they are not repeated here.  The wall-clock
timestamp is omitted. -/
structure SettlementInstruction where
  instruction_id : String
  transaction_id : String
  instruction_type : String
  security_id : String
  quantity : ℚ
  price : ℚ
  sendingInstitution : Nat
  receivingInstitution : Nat
  status : String
deriving DecidableEq, Repr

/-- Euroclear `SettlementInstruction.validate`: `quantity > 0 and price > 0`. -/
def SettlementInstruction.validate (si : SettlementInstruction) : Bool :=
  decide (0 < si.quantity) && decide (0 < si.price)

/-- Euroclear `SettlementInstruction.cancel`: sets the status to `"Canceled"`
unless the instruction is already `"Settled"` or `"Canceled"`. -/
def SettlementInstruction.cancel (si : SettlementInstruction) : SettlementInstruction :=
  if si.status ≠ "Settled" ∧ si.status ≠ "Canceled" then { si with status := "Canceled" }
  else si

/-- Euroclear `CancelInstruction` (the `status` field is never updated by the
source and is omitted; the timestamp is omitted). -/
structure CancelInstruction where
  cancel_id : String
  transaction_id : String
  sendingInstitution : Nat
deriving DecidableEq, Repr

/-- An element of the model's `instructions` queue, which mixes
`SettlementInstruction` and `CancelInstruction` objects. -/
inductive QItem where
  | si (s : SettlementInstruction)
  | cancel (c : CancelInstruction)
deriving DecidableEq, Repr

/-- Project a queue item to its settlement instruction, if it is one. -/
def QItem.asSI : QItem → Option SettlementInstruction
  | .si s => some s
  | .cancel _ => none

/-- Map a function over the settlement-instruction payload of a queue item
(cancel items carry no status the cancellation logic would touch). -/
def QItem.mapSI (f : SettlementInstruction → SettlementInstruction) : QItem → QItem
  | .si s => .si (f s)
  | .cancel c => .cancel c

/-- Euroclear `ClearingReport`. -/
structure ClearingReport where
  transaction_id : String
  payer : Nat
  deliverer : Nat
  quantity : ℚ
  price : ℚ
  net_amount : ℚ
  risk : ℚ
deriving DecidableEq, Repr

/-- Euroclear `PositioningReport` (timestamp omitted). -/
structure PositioningReport where
  transaction_id : String
  payer : Nat
  deliverer : Nat
  quantity : ℚ
  net_amount : ℚ
deriving DecidableEq, Repr

/-- Euroclear `SettlementConfirmation` (settlement date omitted). -/
structure SettlementConfirmation where
  transaction_id : String
  settlement_status : String
  adjusted_quantity : ℚ
  adjusted_net_amount : ℚ
deriving DecidableEq, Repr

/-- A matched-pairs table entry: the `{"Payment": ..., "Security": ...}`
dictionary. -/
structure Pair where
  payment : Option SettlementInstruction
  security : Option SettlementInstruction
deriving DecidableEq, Repr

/-- Euroclear `InstitutionAgent`: its name and its two accounts (the inbox is
modelled by the global message list, the probabilities drive only the random
workload generator). -/
structure Institution where
  name : String
  cash_account : Account
  security_account : Account
deriving DecidableEq, Repr

/-- Structured audit events emitted by the pipeline stages (the subset of the
`Logger` records that carry stage behaviour; purely informational per-step
summary lines are not modelled). -/
inductive Event where
  | processedCancellation (tx : String)
  | skippedCanceledInstruction (instruction_id : String)
  | validatedInstruction (instruction_id : String) (valid : Bool)
  | canceledPair (tx : String)
  | clearingReport (tx : String)
  | positioningReport (tx : String)
  | settlementSkipped (tx : String)
  | settlementFailed (tx : String)
  | settledTransaction (tx : String)
deriving DecidableEq, Repr

/-- Messages delivered to institution inboxes (`send_message`); the recipient
is an institution index. -/
inductive Msg where
  | validationResult (recipient : Nat) (instruction_id : String) (valid : Bool)
  | settlementConfirmation (recipient : Nat) (tx : String) (settlement_status : String)
deriving DecidableEq, Repr

/-- One applied ledger mutation, recording the order in which the Settlement
stage touches the accounts (failed withdrawals mutate nothing and appear in no
trace). -/
inductive LedgerOp where
  | debitCash (inst : Nat) (amount : ℚ)
  | creditCash (inst : Nat) (amount : ℚ)
  | debitSec (inst : Nat) (quantity : ℚ)
  | creditSec (inst : Nat) (quantity : ℚ)
deriving DecidableEq, Repr

/-- Errors corresponding to exceptions the euroclear source can raise:
`.zeroDiv` models the `ZeroDivisionError` of `int(net_amount / price)` when
`price` is zero, `.noneAccess` the `AttributeError` of reading `.status` from a
`None` pair slot, `.badRef` a dangling institution index (impossible in the
Python source, where reports hold object references). -/
inductive Err where
  | zeroDiv
  | noneAccess
  | badRef
deriving DecidableEq, Repr

/-- The euroclear `SettlementModel` state shared by the stage agents. -/
structure EState where
  insts : List Institution
  instructions : List QItem
  validated : List SettlementInstruction
  matched_pairs : List (String × Pair)
  clearing_reports : List ClearingReport
  positioning_reports : List PositioningReport
  settlement_confirmations : List SettlementConfirmation
  messages : List Msg
  log : List Event
  total_possible_net : ℚ
deriving DecidableEq, Repr

/-! ## Validation stage (lines 580-638) -/

/-- The effect of one `CancelInstruction` for transaction `T` on one settlement
instruction (`process_cancel_instruction` guards on the transaction id and on
the status not being `"Canceled"` or `"Settled"`, then calls `cancel()`). -/
def cancelSI (T : String) (si : SettlementInstruction) : SettlementInstruction :=
  if si.transaction_id = T ∧ si.status ≠ "Canceled" ∧ si.status ≠ "Settled" then
    { si with status := "Canceled" }
  else si

/-- The transaction ids of the cancel instructions in an instructions queue, in
queue order. -/
def cancelTxs (items : List QItem) : List String :=
  items.filterMap fun it =>
    match it with
    | .cancel c => some c.transaction_id
    | .si _ => none

/-- Apply the cancellations for a list of transaction ids, in order. -/
def applyCancelList (Ts : List String) (si : SettlementInstruction) : SettlementInstruction :=
  Ts.foldl (fun s T => cancelSI T s) si

/-- The first loop of `ValidationAgent.step`: walk the instructions queue; a
settlement instruction joins `remaining_instructions` (here `acc`), a cancel
instruction is processed by `process_cancel_instruction`, which cancels every
matching live instruction in the full instructions queue (both the part
already kept and the part not yet visited — in the source these are the same
mutable objects), in `validated_instructions`, and removes the transaction
from `matched_pairs`. -/
def processCancels (acc : List SettlementInstruction) (rest : List QItem)
    (vd : List SettlementInstruction) (mp : List (String × Pair)) (lg : List Event) :
    List SettlementInstruction × List SettlementInstruction × List (String × Pair) × List Event :=
  match rest with
  | [] => (acc, vd, mp, lg)
  | .si s :: rest2 => processCancels (acc ++ [s]) rest2 vd mp lg
  | .cancel c :: rest2 =>
      processCancels (acc.map (cancelSI c.transaction_id))
        (rest2.map (QItem.mapSI (cancelSI c.transaction_id)))
        (vd.map (cancelSI c.transaction_id))
        (mp.filter (fun e => e.1 ≠ c.transaction_id))
        (lg ++ [Event.processedCancellation c.transaction_id])
termination_by rest.length
decreasing_by
  · simp
  · simp [List.length_map]

/-- The second loop of `ValidationAgent.step` over the remaining instructions:
a `"Canceled"` instruction is skipped with a log entry, a valid one joins the
validated queue with a `Valid` notice to its sending institution, an invalid
one is dropped with an `Invalid` notice. -/
def validateLoop (rem : List SettlementInstruction) :
    List SettlementInstruction × List Msg × List Event :=
  match rem with
  | [] => ([], [], [])
  | si :: rest =>
    let r := validateLoop rest
    if si.status = "Canceled" then
      (r.1, r.2.1, Event.skippedCanceledInstruction si.instruction_id :: r.2.2)
    else if si.validate then
      (si :: r.1, Msg.validationResult si.sendingInstitution si.instruction_id true :: r.2.1,
        Event.validatedInstruction si.instruction_id true :: r.2.2)
    else
      (r.1, Msg.validationResult si.sendingInstitution si.instruction_id false :: r.2.1,
        Event.validatedInstruction si.instruction_id false :: r.2.2)

/-- Euroclear `ValidationAgent.step`: process every pending cancellation first,
then validate the remaining incoming instructions; the incoming queue ends the
tick empty. -/
def validationStep (st : EState) : EState :=
  let p := processCancels [] st.instructions st.validated st.matched_pairs st.log
  let v := validateLoop p.1
  { st with
    instructions := []
    validated := p.2.1 ++ v.1
    matched_pairs := p.2.2.1
    messages := st.messages ++ v.2.1
    log := p.2.2.2 ++ v.2.2 }

/-- The settlement instructions of the incoming queue after every pending
cancellation of that queue has been applied to them (the closed form of the
first validation loop's `remaining_instructions`). -/
def postCancelIncoming (st : EState) : List SettlementInstruction :=
  (st.instructions.filterMap QItem.asSI).map (applyCancelList (cancelTxs st.instructions))

/-! ## Matching stage (lines 640-661) -/

/-- Dictionary write `matched_pairs[tx][instruction_type] = instr`.  The source
dictionary would also store keys other than `"Payment"` and `"Security"`, but
no code ever reads such a key, so storing them is observationally a no-op. -/
def setSlot (p : Pair) (ty : String) (si : SettlementInstruction) : Pair :=
  if ty = "Payment" then { p with payment := some si }
  else if ty = "Security" then { p with security := some si }
  else p

/-- Update the first entry with the given key of an association list. -/
def mpUpdate (mp : List (String × Pair)) (tx : String) (f : Pair → Pair) :
    List (String × Pair) :=
  match mp with
  | [] => []
  | (k, p) :: rest => if k = tx then (k, f p) :: rest else (k, p) :: mpUpdate rest tx f

/-- Whether the matched-pairs table has an entry for a transaction. -/
def mpContains (mp : List (String × Pair)) (tx : String) : Bool :=
  mp.any (fun e => e.1 == tx)

/-- Insert one validated instruction into the matched-pairs table: create the
`{"Payment": None, "Security": None}` entry if the transaction is new, then
fill the slot named by the instruction's type. -/
def mpInsertInstr (mp : List (String × Pair)) (si : SettlementInstruction) :
    List (String × Pair) :=
  let mp1 := if mpContains mp si.transaction_id then mp
             else mp ++ [(si.transaction_id, ⟨none, none⟩)]
  mpUpdate mp1 si.transaction_id (fun p => setSlot p si.instruction_type si)

/-- The completeness test of `MatchingAgent.step`: both slots filled (object
truthiness) and neither leg `"Canceled"`. -/
def pairComplete (p : Pair) : Bool :=
  match p.payment, p.security with
  | some a, some b => a.status != "Canceled" && b.status != "Canceled"
  | _, _ => false

/-- Euroclear `MatchingAgent.step`: insert every non-canceled validated
instruction into the matched-pairs table, empty the validated queue, and then
replace the table by only its complete pairs (incomplete entries are
discarded by this reassignment). -/
def matchingStep (st : EState) : EState :=
  let mp1 := (st.validated.filter (fun si => si.status != "Canceled")).foldl mpInsertInstr
    st.matched_pairs
  { st with
    validated := []
    matched_pairs := mp1.filter (fun e => pairComplete e.2) }

/-! ## Clearing and positioning stages (lines 663-704) -/

/-- The loop of `ClearingAgent.step` over the matched-pairs entries: a pair
with a canceled leg is logged and dropped; otherwise a clearing report with
`net = quantity * price` and `risk = net * 0.05` is emitted and the pair is
dropped.  Reading `.status` from an empty slot would raise in Python, modelled
as `.error .noneAccess`. -/
def clearingLoop (entries : List (String × Pair)) (reports : List ClearingReport)
    (lg : List Event) (tot : ℚ) : Except Err (List ClearingReport × List Event × ℚ) :=
  match entries with
  | [] => .ok (reports, lg, tot)
  | (tx, pr) :: rest =>
    match pr.payment, pr.security with
    | some pay, some sec =>
      if pay.status = "Canceled" ∨ sec.status = "Canceled" then
        clearingLoop rest reports (lg ++ [Event.canceledPair tx]) tot
      else
        let net := pay.quantity * pay.price
        let risk := net * (5 / 100)
        clearingLoop rest
          (reports ++ [⟨tx, pay.sendingInstitution, sec.sendingInstitution,
            pay.quantity, pay.price, net, risk⟩])
          (lg ++ [Event.clearingReport tx]) (tot + net)
    | _, _ => .error .noneAccess

/-- Euroclear `ClearingAgent.step`: every matched pair is consumed (the table
is empty afterwards). -/
def clearingStep (st : EState) : Except Err EState :=
  match clearingLoop st.matched_pairs st.clearing_reports st.log st.total_possible_net with
  | .error e => .error e
  | .ok r =>
    .ok { st with
      matched_pairs := []
      clearing_reports := r.1
      log := r.2.1
      total_possible_net := r.2.2 }

/-- Euroclear `PositioningAgent.step`: one-to-one transform of clearing
reports into positioning reports; the clearing queue is emptied. -/
def positioningStep (st : EState) : EState :=
  { st with
    positioning_reports := st.positioning_reports ++
      st.clearing_reports.map (fun r => ⟨r.transaction_id, r.payer, r.deliverer,
        r.quantity, r.net_amount⟩)
    clearing_reports := []
    log := st.log ++ st.clearing_reports.map (fun r => Event.positioningReport r.transaction_id) }

/-! ## Settlement stage (lines 706-757) -/

/-- Result of the cash- or security-sufficiency phase of the settlement loop:
either skip the report (with the event to log) or continue with the possibly
adjusted net amount, quantity and adjusted flag. -/
inductive PhaseRes where
  | skip (ev : Event)
  | cont (net q : ℚ) (adjusted : Bool)
deriving DecidableEq, Repr

/-- The cash-sufficiency block of `SettlementAgent.step`: if the payer's cash
account fails `check_balance(net)`, the allowed cash is
`balance - min_balance`; if that is not positive the report is skipped,
otherwise the net amount becomes the allowed cash and the quantity becomes
`int(net / price)` — a `ZeroDivisionError` when `price` is zero. -/
def cashPhase (payer : Institution) (net q price : ℚ) (tx : String) : Except Err PhaseRes :=
  if payer.cash_account.check_balance net then .ok (.cont net q false)
  else
    let allowed_cash := payer.cash_account.balance - payer.cash_account.min_balance
    if allowed_cash ≤ 0 then .ok (.skip (.settlementSkipped tx))
    else if price = 0 then .error .zeroDiv
    else .ok (.cont allowed_cash ((pyint (allowed_cash / price) : ℤ) : ℚ) true)

/-- The security-sufficiency block of `SettlementAgent.step`: if the
deliverer's security account fails `check_balance(q)`, the allowed quantity is
`balance - min_balance`; if that is not positive the report is skipped,
otherwise the quantity becomes the allowed quantity and the net amount is
recomputed as `quantity * price`. -/
def securityPhase (deliverer : Institution) (net q price : ℚ) (adjusted : Bool)
    (tx : String) : PhaseRes :=
  if deliverer.security_account.check_balance q then .cont net q adjusted
  else
    let allowed_qty := deliverer.security_account.balance - deliverer.security_account.min_balance
    if allowed_qty ≤ 0 then .skip (.settlementSkipped tx)
    else .cont (allowed_qty * price) allowed_qty true

/-- Output of processing one positioning report: the updated institutions, the
confirmation if one was emitted, the applied ledger operations in order, the
logged events and the sent messages. -/
structure SettleOut where
  insts : List Institution
  conf : Option SettlementConfirmation
  trace : List LedgerOp
  events : List Event
  msgs : List Msg
deriving DecidableEq, Repr

/-- The transfer block of `SettlementAgent.step` (lines 741-755), in source
order: withdraw the net amount from the payer's cash account (on failure log
`SettlementFailed` and continue with nothing mutated); deposit the quantity
into the payer's security account; deposit the net amount into the deliverer's
cash account; withdraw the quantity from the deliverer's security account (on
failure log `SettlementFailed` and continue, leaving the three previous legs
applied); then emit the confirmation, the two messages and the settled log.
The two consecutive updates of the payer object are written back with one list
update, which has the same effect as two. -/
def transfer (insts : List Institution) (payer deliverer : Nat) (net q : ℚ)
    (adjusted : Bool) (tx : String) : Except Err SettleOut :=
  match insts.get? payer with
  | none => .error .badRef
  | some p =>
    let w1 := p.cash_account.withdraw net
    if w1.1 then
      let p2 := { p with cash_account := w1.2,
                         security_account := p.security_account.deposit q }
      let insts2 := insts.set payer p2
      match insts2.get? deliverer with
      | none => .error .badRef
      | some d =>
        let d1 := { d with cash_account := d.cash_account.deposit net }
        let w2 := d1.security_account.withdraw q
        if w2.1 then
          let d2 := { d1 with security_account := w2.2 }
          let status := if adjusted then "Partial" else "Full"
          .ok ⟨insts2.set deliverer d2,
            some ⟨tx, status, q, net⟩,
            [.debitCash payer net, .creditSec payer q, .creditCash deliverer net,
              .debitSec deliverer q],
            [.settledTransaction tx],
            [.settlementConfirmation payer tx status,
              .settlementConfirmation deliverer tx status]⟩
        else
          .ok ⟨insts2.set deliverer d1, none,
            [.debitCash payer net, .creditSec payer q, .creditCash deliverer net],
            [.settlementFailed tx], []⟩
    else
      .ok ⟨insts, none, [], [.settlementFailed tx], []⟩

/-- Processing of one positioning report by `SettlementAgent.step`:
`price = net / quantity if quantity else 0`, then the cash phase on the payer,
the security phase on the deliverer, then the transfer block. -/
def settleOne (insts : List Institution) (r : PositioningReport) : Except Err SettleOut :=
  match insts.get? r.payer with
  | none => .error .badRef
  | some p =>
    let price : ℚ := if r.quantity ≠ 0 then r.net_amount / r.quantity else 0
    match cashPhase p r.net_amount r.quantity price r.transaction_id with
    | .error e => .error e
    | .ok (.skip ev) => .ok ⟨insts, none, [], [ev], []⟩
    | .ok (.cont net1 q1 adj1) =>
      match insts.get? r.deliverer with
      | none => .error .badRef
      | some d =>
        match securityPhase d net1 q1 price adj1 r.transaction_id with
        | .skip ev => .ok ⟨insts, none, [], [ev], []⟩
        | .cont net2 q2 adj2 => transfer insts r.payer r.deliverer net2 q2 adj2 r.transaction_id

/-- The loop of `SettlementAgent.step` over the positioning reports, threading
the institutions and appending confirmations, events and messages. -/
def settleLoop (insts : List Institution) (reports : List PositioningReport)
    (confs : List SettlementConfirmation) (lg : List Event) (ms : List Msg) :
    Except Err (List Institution × List SettlementConfirmation × List Event × List Msg) :=
  match reports with
  | [] => .ok (insts, confs, lg, ms)
  | r :: rest =>
    match settleOne insts r with
    | .error e => .error e
    | .ok o => settleLoop o.insts rest (confs ++ o.conf.toList) (lg ++ o.events) (ms ++ o.msgs)

/-- Euroclear `SettlementAgent.step`: settle each positioning report in queue
order, then empty the positioning queue. -/
def settlementStep (st : EState) : Except Err EState :=
  match settleLoop st.insts st.positioning_reports st.settlement_confirmations st.log
      st.messages with
  | .error e => .error e
  | .ok r =>
  .ok { st with
    insts := r.1
    settlement_confirmations := r.2.1
    log := r.2.2.1
    messages := r.2.2.2
    positioning_reports := [] }

/-! ## The pipeline stages as a step relation -/

/-- The five euroclear pipeline stage agents. -/
inductive Stage where
  | validation
  | matching
  | clearing
  | positioning
  | settlement
deriving DecidableEq, Repr

/-- One invocation of a stage agent on the shared model state. -/
def stageStep : Stage → EState → Except Err EState
  | .validation, st => .ok (validationStep st)
  | .matching, st => .ok (matchingStep st)
  | .clearing, st => clearingStep st
  | .positioning, st => .ok (positioningStep st)
  | .settlement, st => settlementStep st

/-- Run a sequence of stage invocations (an arbitrary scheduler order across
any number of ticks); an uncaught exception aborts the run. -/
def runStages : List Stage → EState → Except Err EState
  | [], st => .ok st
  | s :: rest, st =>
    match stageStep s st with
    | .error e => .error e
    | .ok st2 => runStages rest st2

/-- Total cash over the institutions' cash accounts. -/
def totalCash (insts : List Institution) : ℚ :=
  (insts.map (fun i => i.cash_account.balance)).sum

/-- Total security holdings over the institutions' security accounts. -/
def totalSec (insts : List Institution) : ℚ :=
  (insts.map (fun i => i.security_account.balance)).sum

/-! ## Helper lemmas -/

theorem Account.withdraw_of_check (a : Account) (amount : ℚ)
    (h : a.check_balance amount = true) :
    a.withdraw amount = (true, { a with balance := a.balance - amount }) := by
  simp [Account.withdraw, h]

theorem Account.withdraw_of_fail (a : Account) (amount : ℚ)
    (h : a.check_balance amount = false) :
    a.withdraw amount = (false, a) := by
  simp [Account.withdraw, h]

theorem sumMapSet {α : Type} (f : α → ℚ) :
    ∀ (l : List α) (i : Nat) (x v : α), l.get? i = some v →
      ((l.set i x).map f).sum = (l.map f).sum - f v + f x := by
  intro l
  induction l with
  | nil => intro i x v h; simp at h
  | cons hd tl ih =>
    intro i x v h
    cases i with
    | zero =>
      simp only [List.get?_cons_zero, Option.some.injEq] at h
      subst h
      simp [List.set]
      ring
    | succ n =>
      simp only [List.get?_cons_succ] at h
      simp only [List.set, List.map_cons, List.sum_cons, ih n x v h]
      ring

theorem transfer_eq_failPayer (insts : List Institution) (payer deliverer : Nat)
    (net q : ℚ) (adjusted : Bool) (tx : String) (p : Institution)
    (hp : insts.get? payer = some p)
    (hw : p.cash_account.check_balance net = false) :
    transfer insts payer deliverer net q adjusted tx =
      .ok ⟨insts, none, [], [.settlementFailed tx], []⟩ := by
  unfold transfer
  rw [hp]
  simp [Account.withdraw_of_fail _ _ hw]

/-- The institutions list after the two payer-side legs of the transfer
(cash debited by `net`, securities credited by `q`). -/
def afterPayerLegs (insts : List Institution) (payer : Nat) (p : Institution)
    (net q : ℚ) : List Institution :=
  insts.set payer
    { p with
      cash_account := { p.cash_account with balance := p.cash_account.balance - net },
      security_account := p.security_account.deposit q }

theorem transfer_eq_failDeliverer (insts : List Institution) (payer deliverer : Nat)
    (net q : ℚ) (adjusted : Bool) (tx : String) (p d : Institution)
    (hp : insts.get? payer = some p)
    (hw : p.cash_account.check_balance net = true)
    (hd : (afterPayerLegs insts payer p net q).get? deliverer = some d)
    (hw2 : d.security_account.check_balance q = false) :
    transfer insts payer deliverer net q adjusted tx =
      .ok ⟨(afterPayerLegs insts payer p net q).set deliverer
             { d with cash_account := d.cash_account.deposit net },
           none,
           [.debitCash payer net, .creditSec payer q, .creditCash deliverer net],
           [.settlementFailed tx], []⟩ := by
  unfold transfer afterPayerLegs at *
  rw [hp]
  simp only [Account.withdraw_of_check _ _ hw]
  rw [hd]
  simp [Account.withdraw_of_fail _ _ hw2]

theorem transfer_eq_ok (insts : List Institution) (payer deliverer : Nat)
    (net q : ℚ) (adjusted : Bool) (tx : String) (p d : Institution)
    (hp : insts.get? payer = some p)
    (hw : p.cash_account.check_balance net = true)
    (hd : (afterPayerLegs insts payer p net q).get? deliverer = some d)
    (hw2 : d.security_account.check_balance q = true) :
    transfer insts payer deliverer net q adjusted tx =
      .ok ⟨(afterPayerLegs insts payer p net q).set deliverer
             { d with
               cash_account := d.cash_account.deposit net,
               security_account :=
                 { d.security_account with balance := d.security_account.balance - q } },
           some ⟨tx, if adjusted then "Partial" else "Full", q, net⟩,
           [.debitCash payer net, .creditSec payer q, .creditCash deliverer net,
             .debitSec deliverer q],
           [.settledTransaction tx],
           [.settlementConfirmation payer tx (if adjusted then "Partial" else "Full"),
             .settlementConfirmation deliverer tx (if adjusted then "Partial" else "Full")]⟩ := by
  unfold transfer afterPayerLegs at *
  rw [hp]
  simp only [Account.withdraw_of_check _ _ hw]
  rw [hd]
  simp [Account.withdraw_of_check _ _ hw2]

theorem transfer_conserves (insts : List Institution) (payer deliverer : Nat)
    (net q : ℚ) (adjusted : Bool) (tx : String) (o : SettleOut)
    (h : transfer insts payer deliverer net q adjusted tx = .ok o)
    (hc : o.conf.isSome = true) :
    totalCash o.insts = totalCash insts ∧ totalSec o.insts = totalSec insts := by
  cases hp : insts.get? payer with
  | none =>
    unfold transfer at h
    rw [hp] at h
    exact absurd h (by simp)
  | some p =>
    by_cases hw : p.cash_account.check_balance net = true
    · cases hd : (afterPayerLegs insts payer p net q).get? deliverer with
      | none =>
        unfold transfer at h
        unfold afterPayerLegs at hd
        rw [hp] at h
        simp only [Account.withdraw_of_check _ _ hw] at h
        rw [hd] at h
        exact absurd h (by simp)
      | some d =>
        by_cases hw2 : d.security_account.check_balance q = true
        · rw [transfer_eq_ok insts payer deliverer net q adjusted tx p d hp hw hd hw2] at h
          injection h with h1
          subst h1
          unfold afterPayerLegs at hd
          constructor
          · show totalCash _ = _
            unfold totalCash afterPayerLegs
            rw [sumMapSet _ _ deliverer _ d hd]
            rw [sumMapSet _ insts payer _ p hp]
            simp [Account.deposit]
            ring
          · show totalSec _ = _
            unfold totalSec afterPayerLegs
            rw [sumMapSet _ _ deliverer _ d hd]
            rw [sumMapSet _ insts payer _ p hp]
            simp [Account.deposit]
            ring
        · rw [transfer_eq_failDeliverer insts payer deliverer net q adjusted tx p d hp hw hd
            (eq_false_of_ne_true hw2)] at h
          injection h with h1
          subst h1
          exact absurd hc (by simp)
    · rw [transfer_eq_failPayer insts payer deliverer net q adjusted tx p hp
        (eq_false_of_ne_true hw)] at h
      injection h with h1
      subst h1
      exact absurd hc (by simp)

theorem transfer_conf_tx (insts : List Institution) (payer deliverer : Nat)
    (net q : ℚ) (adjusted : Bool) (tx : String) (o : SettleOut) (c : SettlementConfirmation)
    (h : transfer insts payer deliverer net q adjusted tx = .ok o)
    (hc : o.conf = some c) : c.transaction_id = tx := by
  cases hp : insts.get? payer with
  | none =>
    unfold transfer at h
    rw [hp] at h
    exact absurd h (by simp)
  | some p =>
    by_cases hw : p.cash_account.check_balance net = true
    · cases hd : (afterPayerLegs insts payer p net q).get? deliverer with
      | none =>
        unfold transfer at h
        unfold afterPayerLegs at hd
        rw [hp] at h
        simp only [Account.withdraw_of_check _ _ hw] at h
        rw [hd] at h
        exact absurd h (by simp)
      | some d =>
        by_cases hw2 : d.security_account.check_balance q = true
        · rw [transfer_eq_ok insts payer deliverer net q adjusted tx p d hp hw hd hw2] at h
          injection h with h1
          subst h1
          simp only [Option.some.injEq] at hc
          rw [← hc]
        · rw [transfer_eq_failDeliverer insts payer deliverer net q adjusted tx p d hp hw hd
            (eq_false_of_ne_true hw2)] at h
          injection h with h1
          subst h1
          exact absurd hc (by simp)
    · rw [transfer_eq_failPayer insts payer deliverer net q adjusted tx p hp
        (eq_false_of_ne_true hw)] at h
      injection h with h1
      subst h1
      exact absurd hc (by simp)

theorem settleOne_conserves (insts : List Institution) (r : PositioningReport) (o : SettleOut)
    (h : settleOne insts r = .ok o) (hc : o.conf.isSome = true) :
    totalCash o.insts = totalCash insts ∧ totalSec o.insts = totalSec insts := by
  unfold settleOne at h
  cases hp : insts.get? r.payer with
  | none => rw [hp] at h; exact absurd h (by simp)
  | some p =>
    rw [hp] at h
    dsimp only at h
    cases hcp : cashPhase p r.net_amount r.quantity
        (if r.quantity ≠ 0 then r.net_amount / r.quantity else 0) r.transaction_id with
    | error e => rw [hcp] at h; exact absurd h (by simp)
    | ok pr =>
      rw [hcp] at h
      cases pr with
      | skip ev =>
        injection h with h1
        subst h1
        exact absurd hc (by simp)
      | cont net1 q1 adj1 =>
        cases hd : insts.get? r.deliverer with
        | none => rw [hd] at h; exact absurd h (by simp)
        | some d =>
          rw [hd] at h
          dsimp only at h
          cases hsp : securityPhase d net1 q1
              (if r.quantity ≠ 0 then r.net_amount / r.quantity else 0) adj1
              r.transaction_id with
          | skip ev =>
            rw [hsp] at h
            injection h with h1
            subst h1
            exact absurd hc (by simp)
          | cont net2 q2 adj2 =>
            rw [hsp] at h
            exact transfer_conserves insts r.payer r.deliverer net2 q2 adj2
              r.transaction_id o h hc

theorem settleOne_conf_tx (insts : List Institution) (r : PositioningReport) (o : SettleOut)
    (c : SettlementConfirmation)
    (h : settleOne insts r = .ok o) (hc : o.conf = some c) :
    c.transaction_id = r.transaction_id := by
  unfold settleOne at h
  cases hp : insts.get? r.payer with
  | none => rw [hp] at h; exact absurd h (by simp)
  | some p =>
    rw [hp] at h
    dsimp only at h
    cases hcp : cashPhase p r.net_amount r.quantity
        (if r.quantity ≠ 0 then r.net_amount / r.quantity else 0) r.transaction_id with
    | error e => rw [hcp] at h; exact absurd h (by simp)
    | ok pr =>
      rw [hcp] at h
      cases pr with
      | skip ev =>
        injection h with h1
        subst h1
        exact absurd hc (by simp)
      | cont net1 q1 adj1 =>
        cases hd : insts.get? r.deliverer with
        | none => rw [hd] at h; exact absurd h (by simp)
        | some d =>
          rw [hd] at h
          dsimp only at h
          cases hsp : securityPhase d net1 q1
              (if r.quantity ≠ 0 then r.net_amount / r.quantity else 0) adj1
              r.transaction_id with
          | skip ev =>
            rw [hsp] at h
            injection h with h1
            subst h1
            exact absurd hc (by simp)
          | cont net2 q2 adj2 =>
            rw [hsp] at h
            exact transfer_conf_tx insts r.payer r.deliverer net2 q2 adj2
              r.transaction_id o c h hc

theorem updateCashBalance_snd (a : AccountAgent) (amount : ℚ) :
    (a.updateCashBalance amount).2 = 0 ∨ (a.updateCashBalance amount).2 = amount := by
  unfold AccountAgent.updateCashBalance
  dsimp only
  split_ifs <;> simp

theorem updateCashBalance_invariant (a : AccountAgent) (amount : ℚ)
    (h : a.invariant) : (a.updateCashBalance amount).1.invariant := by
  obtain ⟨h1, h2⟩ := h
  unfold AccountAgent.updateCashBalance
  dsimp only
  split_ifs with hc1 hc2
  · exact ⟨h1, h2⟩
  · refine ⟨?_, h2⟩
    show (0:ℚ) ≤ a.cashBalance + amount + a.creditLimit
    rcases lt_or_le amount 0 with ha | ha
    · rcases not_and_or.mp hc1 with hx | hx
      · exact absurd ha hx
      · linarith [not_lt.mp hx]
    · linarith
  · refine ⟨?_, h2⟩
    show (0:ℚ) ≤ 0 + (a.creditLimit + (amount + a.cashBalance))
    rcases lt_or_le amount 0 with ha | ha
    · rcases not_and_or.mp hc1 with hx | hx
      · exact absurd ha hx
      · linarith [not_lt.mp hx]
    · linarith

theorem secSet_nonneg (ty : String) (v : ℚ) (hv : 0 ≤ v) :
    ∀ (l : List (String × ℚ)), (∀ e ∈ l, 0 ≤ e.2) → ∀ e ∈ secSet l ty v, 0 ≤ e.2 := by
  intro l
  induction l with
  | nil =>
    intro _ e he
    simp only [secSet, List.mem_singleton] at he
    subst he
    exact hv
  | cons hd tl ih =>
    intro hl e he
    unfold secSet at he
    split_ifs at he with hk
    · rw [List.mem_cons] at he
      rcases he with he | he
      · subst he; exact hv
      · exact hl e (List.mem_cons_of_mem _ he)
    · rw [List.mem_cons] at he
      rcases he with he | he
      · subst he; exact hl hd (List.mem_cons_self _ _)
      · exact ih (fun x hx => hl x (List.mem_cons_of_mem _ hx)) e he

theorem updateSecurities_invariant (a : AccountAgent) (ty : String) (amount : ℚ)
    (h : a.invariant) : (a.updateSecurities ty amount).1.invariant := by
  obtain ⟨h1, h2⟩ := h
  unfold AccountAgent.updateSecurities
  dsimp only
  split_ifs with hc
  · exact ⟨h1, h2⟩
  · exact ⟨h1, secSet_nonneg ty _ (by linarith [not_lt.mp hc]) a.securities h2⟩

theorem applyOpM_invariant (a : AccountAgent) (op : LedgerOpM) (h : a.invariant) :
    (applyOpM a op).invariant := by
  cases op with
  | cash amount => exact updateCashBalance_invariant a amount h
  | sec ty amount => exact updateSecurities_invariant a ty amount h

/-! ## Claim theorems: ledger and account claims -/

/-- Claim C10: for every account and nonnegative amount, `Account.withdraw`
returns `True` and decreases the balance by exactly the amount when
`balance - amount >= min_balance` (and the result stays at or above the
minimum-balance floor), and otherwise returns `False` leaving the account
unchanged. -/
theorem claim10_theorem (a : Account) (amount : ℚ) (h : 0 ≤ amount) :
    (a.min_balance ≤ a.balance - amount →
      a.withdraw amount = (true, { a with balance := a.balance - amount }) ∧
      a.min_balance ≤ ({ a with balance := a.balance - amount } : Account).balance) ∧
    (a.balance - amount < a.min_balance →
      a.withdraw amount = (false, a)) := by
  constructor
  · intro hge
    refine ⟨Account.withdraw_of_check a amount ?_, by simpa using hge⟩
    unfold Account.check_balance
    exact decide_eq_true hge
  · intro hlt
    refine Account.withdraw_of_fail a amount ?_
    unfold Account.check_balance
    exact decide_eq_false (not_le.mpr hlt)

theorem claim10_witness :
    ((0:ℚ) ≤ 30) ∧ ((10:ℚ) ≤ 100 - 30) ∧
    (Account.withdraw ⟨100, 10⟩ 30 = (true, ⟨100 - 30, 10⟩) ∧
      (10:ℚ) ≤ ({ balance := 100 - 30, min_balance := 10 } : Account).balance) :=
  ⟨by norm_num, by norm_num, (claim10_theorem ⟨100, 10⟩ 30 (by norm_num)).1 (by norm_num)⟩

/-- Claim C6: starting from any account satisfying the invariant
`cashBalance + creditLimit >= 0` with all holdings nonnegative, every sequence
of ledger operations preserves the invariant; and a cash debit drawing into
credit (within the total available) floors cash at zero and shrinks the credit
limit by exactly the deficit, keeping the invariant. -/
theorem claim6_theorem :
    (∀ (a : AccountAgent) (ops : List LedgerOpM), a.invariant → (applyOpsM a ops).invariant) ∧
    (∀ (a : AccountAgent) (amount : ℚ), a.invariant → amount < 0 →
      0 ≤ a.cashBalance + a.creditLimit + amount →
      a.cashBalance + amount < 0 →
      a.updateCashBalance amount =
        (⟨0, a.creditLimit + (amount + a.cashBalance), a.securities⟩, amount) ∧
      (⟨0, a.creditLimit + (amount + a.cashBalance), a.securities⟩ : AccountAgent).invariant) := by
  constructor
  · intro a ops
    induction ops generalizing a with
    | nil => intro h; simpa [applyOpsM] using h
    | cons op rest ih =>
      intro h
      have : applyOpsM a (op :: rest) = applyOpsM (applyOpM a op) rest := by
        simp [applyOpsM]
      rw [this]
      exact ih _ (applyOpM_invariant a op h)
  · intro a amount h hneg htot hcash
    constructor
    · unfold AccountAgent.updateCashBalance
      dsimp only
      split_ifs with hc1 hc2
      · exact absurd hc1.2 (by linarith)
      · exact absurd hc2 (not_le.mpr hcash)
      · rfl
    · exact ⟨by dsimp only; linarith, h.2⟩

theorem claim6_witness :
    (applyOpsM ⟨50, 40, [("bond", 5)]⟩ [.cash (-70), .sec "bond" (-3)]).invariant ∧
    AccountAgent.updateCashBalance ⟨50, 40, [("bond", 5)]⟩ (-70) =
      (⟨0, 20, [("bond", 5)]⟩, -70) := by
  have hinv : (⟨50, 40, [("bond", 5)]⟩ : AccountAgent).invariant := by
    refine ⟨by norm_num, ?_⟩
    intro e he
    simp only [List.mem_singleton] at he
    subst he
    norm_num
  constructor
  · exact claim6_theorem.1 ⟨50, 40, [("bond", 5)]⟩ [.cash (-70), .sec "bond" (-3)] hinv
  · have h := (claim6_theorem.2 ⟨50, 40, [("bond", 5)]⟩ (-70) hinv
      (by norm_num) (by norm_num) (by norm_num)).1
    rw [h]
    norm_num

/-! ## Claim theorems: settlement-stage claims -/

/-- Claim C8 (evaluation at the failing input): a positioning report with
quantity zero is not skipped as a no-op.  With the payer short of cash it
reaches `int(net_amount / price)` with `price = 0` and raises
`ZeroDivisionError`; with the payer funded it moves the net amount of cash and
emits a `Full` confirmation, mutating balances. -/
theorem claim8_theorem :
    settleOne [⟨"A", ⟨50, 10⟩, ⟨10000, 100⟩⟩, ⟨"B", ⟨1000000, 10000⟩, ⟨10000, 100⟩⟩]
        ⟨"TX-8", 0, 1, 0, 100⟩ = .error .zeroDiv ∧
    settleOne [⟨"C", ⟨1000000, 10000⟩, ⟨10000, 100⟩⟩, ⟨"D", ⟨1000000, 10000⟩, ⟨10000, 100⟩⟩]
        ⟨"TX-8b", 0, 1, 0, 100⟩ =
      .ok ⟨[⟨"C", ⟨999900, 10000⟩, ⟨10000, 100⟩⟩, ⟨"D", ⟨1000100, 10000⟩, ⟨10000, 100⟩⟩],
        some ⟨"TX-8b", "Full", 0, 100⟩,
        [.debitCash 0 100, .creditSec 0 0, .creditCash 1 100, .debitSec 1 0],
        [.settledTransaction "TX-8b"],
        [.settlementConfirmation 0 "TX-8b" "Full", .settlementConfirmation 1 "TX-8b" "Full"]⟩ := by
  constructor
  · with_unfolding_all rfl
  · with_unfolding_all rfl

/-- Claim C1, counterexample: the four ledger operations of a successful
transfer are applied in the order payer-cash debit, payer-security credit,
deliverer-cash credit, deliverer-security debit — not in the claimed order
that credits the payer's securities only after the deliverer-security debit. -/
theorem claim1_counterexample :
    Except.map SettleOut.trace (settleOne [⟨"A1", ⟨1000, 0⟩, ⟨0, 0⟩⟩, ⟨"B1", ⟨0, 0⟩, ⟨50, 0⟩⟩]
        ⟨"TX-1", 0, 1, 5, 100⟩) =
      .ok [.debitCash 0 100, .creditSec 0 5, .creditCash 1 100, .debitSec 1 5] ∧
    ([LedgerOp.debitCash 0 100, .creditSec 0 5, .creditCash 1 100, .debitSec 1 5] ≠
      [LedgerOp.debitCash 0 100, .creditCash 1 100, .debitSec 1 5, .creditSec 0 5]) := by
  constructor
  · with_unfolding_all rfl
  · simp

/-- Claim C2, counterexample: with the payer's cash account at balance
1000000 and minimum balance 10000, a report of net amount 995000 satisfies
`cash - netAmount >= 0` (so with any nonnegative credit limit the claimed test
would call it fully funded), yet the stage adjusts the report and settles it
partially at net 990000 and quantity 9: the test the code runs is against the
minimum-balance floor, not a credit limit. -/
theorem claim2_counterexample :
    ((0:ℚ) ≤ 1000000 - 995000) ∧
    Except.map SettleOut.conf (settleOne
        [⟨"P2", ⟨1000000, 10000⟩, ⟨10000, 100⟩⟩, ⟨"Q2", ⟨1000000, 10000⟩, ⟨10000, 100⟩⟩]
        ⟨"TX-2", 0, 1, 10, 995000⟩) =
      .ok (some ⟨"TX-2", "Partial", 9, 990000⟩) := by
  exact ⟨by norm_num, by with_unfolding_all rfl⟩

/-- Claim C3, counterexample: a transaction whose Payment leg alone has been
validated does not remain pending in the matched-pairs table — the Matching
step discards the incomplete pair; when the Security leg arrives in a later
tick it is likewise discarded, so the transaction never matches. -/
theorem claim3_counterexample :
    (matchingStep ⟨[], [], [⟨"TX-1-P", "TX-1", "Payment", "SEC-XYZ", 5, 2, 0, 1, "New"⟩],
        [], [], [], [], [], [], 0⟩).matched_pairs = [] ∧
    (matchingStep ⟨[], [], [⟨"TX-1-S", "TX-1", "Security", "SEC-XYZ", 5, 2, 1, 0, "New"⟩],
        [], [], [], [], [], [], 0⟩).matched_pairs = [] := by
  constructor
  · with_unfolding_all rfl
  · with_unfolding_all rfl

/-- Claim C5, counterexample: non-failing mesa settlement attempts change the
totals.  `InstructionAgent.settle` on a funded buyer (amount 30) ends
`"settled"` yet destroys 30 cash and creates 30 bond units; and
`TransactionAgent.settle` on a Matched transaction of amount -30 ends
`"Settled"` while growing total cash from 100 to 130 and total bond holdings
from 50 to 80. -/
theorem claim5_counterexample :
    (InstructionAgent.settle [⟨100, 0, []⟩] ⟨"bond", 30, "pending", "buyer", 0⟩ =
      .ok ([⟨70, 0, [("bond", 30)]⟩], ⟨"bond", 30, "settled", "buyer", 0⟩)) ∧
    (totalCashM [⟨70, 0, [("bond", 30)]⟩] ≠ totalCashM [⟨100, 0, []⟩]) ∧
    (totalSecM [⟨70, 0, [("bond", 30)]⟩] "bond" ≠ totalSecM [⟨100, 0, []⟩] "bond") ∧
    (Except.map (fun x => (x.2.state, totalCashM x.1, totalSecM x.1 "bond"))
        (TransactionAgent.settle [⟨100, 0, []⟩, ⟨0, 0, [("bond", 50)]⟩]
          ⟨"Matched", ⟨"bond", 0, "pending", "buyer", 0⟩, ⟨"bond", 0, "pending", "seller", 1⟩,
            -30⟩) =
      .ok ("Settled", 130, 80)) ∧
    ((130:ℚ) ≠ totalCashM [⟨100, 0, []⟩, ⟨0, 0, [("bond", 50)]⟩] ∧
      (80:ℚ) ≠ totalSecM [⟨100, 0, []⟩, ⟨0, 0, [("bond", 50)]⟩] "bond") := by
  refine ⟨by with_unfolding_all rfl, ?_, ?_, by with_unfolding_all rfl, ?_, ?_⟩
  · norm_num [totalCashM]
  · norm_num [totalSecM, secLookup]
  · norm_num [totalCashM]
  · norm_num [totalSecM, secLookup]

/-- Claim C7, counterexample: the settlement stage never consults the
partial-settlement policy.  An institution that has opted out
(`allow_partial = false` after `opt_out_partial`) still sees its underfunded
report settled partially: this run adjusts the report and moves 490000 cash,
instead of the claimed Failed outcome with no balance change. -/
theorem claim7_counterexample :
    (optOutPartialSettlement ⟨true⟩).partialAllowed = false ∧
    Except.map (fun o => (o.conf, o.insts.map (fun i => i.cash_account.balance)))
      (settleOne [⟨"P7", ⟨500000, 10000⟩, ⟨10000, 100⟩⟩, ⟨"D7", ⟨1000000, 10000⟩, ⟨10000, 100⟩⟩]
        ⟨"TX-7", 0, 1, 6, 600000⟩) =
      .ok (some ⟨"TX-7", "Partial", 4, 490000⟩, [10000, 1490000]) := by
  exact ⟨rfl, by with_unfolding_all rfl⟩

theorem pairComplete_iff (p : Pair) :
    pairComplete p = true ↔
      ∃ a b, p.payment = some a ∧ p.security = some b ∧
        a.status ≠ "Canceled" ∧ b.status ≠ "Canceled" := by
  rcases p with ⟨pp, ps⟩
  cases pp <;> cases ps <;>
    simp [pairComplete, Bool.and_eq_true, bne_iff_ne]

theorem securityPhase_adjusted (d : Institution) (net q price : ℚ) (tx : String)
    (net2 q2 : ℚ) (adj2 : Bool)
    (h : securityPhase d net q price true tx = .cont net2 q2 adj2) : adj2 = true := by
  unfold securityPhase at h
  by_cases h1 : d.security_account.check_balance q = true
  · rw [if_pos h1] at h
    injection h with e1 e2 e3
    exact e3.symm
  · rw [if_neg h1] at h
    dsimp only at h
    by_cases h2 : d.security_account.balance - d.security_account.min_balance ≤ 0
    · rw [if_pos h2] at h
      exact absurd h (by simp)
    · rw [if_neg h2] at h
      injection h with e1 e2 e3
      exact e3.symm

theorem cashPhase_skip (p : Institution) (net q price : ℚ) (tx : String)
    (hw : p.cash_account.check_balance net = false)
    (hle : p.cash_account.balance - p.cash_account.min_balance ≤ 0) :
    cashPhase p net q price tx = .ok (.skip (.settlementSkipped tx)) := by
  unfold cashPhase
  rw [hw]
  simp [hle]

theorem cashPhase_adjust (p : Institution) (net q price : ℚ) (tx : String)
    (hw : p.cash_account.check_balance net = false)
    (hgt : 0 < p.cash_account.balance - p.cash_account.min_balance)
    (hpr : price ≠ 0) :
    cashPhase p net q price tx =
      .ok (.cont (p.cash_account.balance - p.cash_account.min_balance)
        ((pyint ((p.cash_account.balance - p.cash_account.min_balance) / price) : ℤ) : ℚ)
        true) := by
  unfold cashPhase
  rw [hw]
  simp [not_le.mpr hgt, hpr]

theorem settleOne_skipCash (insts : List Institution) (r : PositioningReport) (p : Institution)
    (hp : insts.get? r.payer = some p)
    (hw : p.cash_account.check_balance r.net_amount = false)
    (hle : p.cash_account.balance - p.cash_account.min_balance ≤ 0) :
    settleOne insts r = .ok ⟨insts, none, [], [.settlementSkipped r.transaction_id], []⟩ := by
  unfold settleOne
  rw [hp]
  dsimp only
  rw [cashPhase_skip p r.net_amount r.quantity _ r.transaction_id hw hle]

theorem transfer_conf_status (insts : List Institution) (payer deliverer : Nat)
    (net q : ℚ) (adjusted : Bool) (tx : String) (o : SettleOut) (c : SettlementConfirmation)
    (h : transfer insts payer deliverer net q adjusted tx = .ok o)
    (hc : o.conf = some c) :
    c.settlement_status = (if adjusted then "Partial" else "Full") := by
  cases hp : insts.get? payer with
  | none =>
    unfold transfer at h
    rw [hp] at h
    exact absurd h (by simp)
  | some p =>
    by_cases hw : p.cash_account.check_balance net = true
    · cases hd : (afterPayerLegs insts payer p net q).get? deliverer with
      | none =>
        unfold transfer at h
        unfold afterPayerLegs at hd
        rw [hp] at h
        simp only [Account.withdraw_of_check _ _ hw] at h
        rw [hd] at h
        exact absurd h (by simp)
      | some d =>
        by_cases hw2 : d.security_account.check_balance q = true
        · rw [transfer_eq_ok insts payer deliverer net q adjusted tx p d hp hw hd hw2] at h
          injection h with h1
          subst h1
          simp only [Option.some.injEq] at hc
          rw [← hc]
        · rw [transfer_eq_failDeliverer insts payer deliverer net q adjusted tx p d hp hw hd
            (eq_false_of_ne_true hw2)] at h
          injection h with h1
          subst h1
          exact absurd hc (by simp)
    · rw [transfer_eq_failPayer insts payer deliverer net q adjusted tx p hp
        (eq_false_of_ne_true hw)] at h
      injection h with h1
      subst h1
      exact absurd hc (by simp)

/-- Claim C1, amended: the transfer for one report applies its operations in
the order payer-cash debit, payer-security credit, deliverer-cash credit,
deliverer-security debit.  If the payer-cash debit fails nothing is mutated
for the report; if the deliverer-security debit fails the three legs already
applied — including the payer-security credit — are kept with no rollback. -/
theorem claim1_amended (insts : List Institution) (payer deliverer : Nat) (net q : ℚ)
    (adjusted : Bool) (tx : String) (p : Institution)
    (hp : insts.get? payer = some p) :
    (p.cash_account.check_balance net = false →
      transfer insts payer deliverer net q adjusted tx =
        .ok ⟨insts, none, [], [.settlementFailed tx], []⟩) ∧
    (∀ d, p.cash_account.check_balance net = true →
      (afterPayerLegs insts payer p net q).get? deliverer = some d →
      d.security_account.check_balance q = true →
      transfer insts payer deliverer net q adjusted tx =
        .ok ⟨(afterPayerLegs insts payer p net q).set deliverer
               { d with
                 cash_account := d.cash_account.deposit net,
                 security_account :=
                   { d.security_account with balance := d.security_account.balance - q } },
             some ⟨tx, if adjusted then "Partial" else "Full", q, net⟩,
             [.debitCash payer net, .creditSec payer q, .creditCash deliverer net,
               .debitSec deliverer q],
             [.settledTransaction tx],
             [.settlementConfirmation payer tx (if adjusted then "Partial" else "Full"),
               .settlementConfirmation deliverer tx (if adjusted then "Partial" else "Full")]⟩) ∧
    (∀ d, p.cash_account.check_balance net = true →
      (afterPayerLegs insts payer p net q).get? deliverer = some d →
      d.security_account.check_balance q = false →
      transfer insts payer deliverer net q adjusted tx =
        .ok ⟨(afterPayerLegs insts payer p net q).set deliverer
               { d with cash_account := d.cash_account.deposit net },
             none,
             [.debitCash payer net, .creditSec payer q, .creditCash deliverer net],
             [.settlementFailed tx], []⟩) := by
  refine ⟨?_, ?_, ?_⟩
  · intro hw
    exact transfer_eq_failPayer insts payer deliverer net q adjusted tx p hp hw
  · intro d hw hd hw2
    exact transfer_eq_ok insts payer deliverer net q adjusted tx p d hp hw hd hw2
  · intro d hw hd hw2
    exact transfer_eq_failDeliverer insts payer deliverer net q adjusted tx p d hp hw hd hw2

theorem claim1_witness :
    (transfer [⟨"A1", ⟨1000, 0⟩, ⟨0, 0⟩⟩, ⟨"B1", ⟨0, 0⟩, ⟨50, 0⟩⟩] 0 1 100 5 false "W1" =
      .ok ⟨(afterPayerLegs [⟨"A1", ⟨1000, 0⟩, ⟨0, 0⟩⟩, ⟨"B1", ⟨0, 0⟩, ⟨50, 0⟩⟩] 0
              ⟨"A1", ⟨1000, 0⟩, ⟨0, 0⟩⟩ 100 5).set 1
             (⟨"B1", (⟨0, 0⟩ : Account).deposit 100,
               { (⟨50, 0⟩ : Account) with balance := (⟨50, 0⟩ : Account).balance - 5 }⟩ :
               Institution),
           some ⟨"W1", if false then "Partial" else "Full", 5, 100⟩,
           [.debitCash 0 100, .creditSec 0 5, .creditCash 1 100, .debitSec 1 5],
           [.settledTransaction "W1"],
           [.settlementConfirmation 0 "W1" (if false then "Partial" else "Full"),
             .settlementConfirmation 1 "W1" (if false then "Partial" else "Full")]⟩) ∧
    (transfer [⟨"A2", ⟨1000, 0⟩, ⟨0, 0⟩⟩, ⟨"B2", ⟨0, 0⟩, ⟨3, 0⟩⟩] 0 1 100 5 false "W2" =
      .ok ⟨(afterPayerLegs [⟨"A2", ⟨1000, 0⟩, ⟨0, 0⟩⟩, ⟨"B2", ⟨0, 0⟩, ⟨3, 0⟩⟩] 0
              ⟨"A2", ⟨1000, 0⟩, ⟨0, 0⟩⟩ 100 5).set 1
             (⟨"B2", (⟨0, 0⟩ : Account).deposit 100, ⟨3, 0⟩⟩ : Institution),
           none,
           [.debitCash 0 100, .creditSec 0 5, .creditCash 1 100],
           [.settlementFailed "W2"], []⟩) ∧
    ((afterPayerLegs [⟨"A2", ⟨1000, 0⟩, ⟨0, 0⟩⟩, ⟨"B2", ⟨0, 0⟩, ⟨3, 0⟩⟩] 0
        ⟨"A2", ⟨1000, 0⟩, ⟨0, 0⟩⟩ 100 5).map (fun i => i.security_account.balance) = [5, 3]) := by
  refine ⟨?_, ?_, by with_unfolding_all rfl⟩
  · exact (claim1_amended [⟨"A1", ⟨1000, 0⟩, ⟨0, 0⟩⟩, ⟨"B1", ⟨0, 0⟩, ⟨50, 0⟩⟩] 0 1 100 5 false
      "W1" ⟨"A1", ⟨1000, 0⟩, ⟨0, 0⟩⟩ rfl).2.1 ⟨"B1", ⟨0, 0⟩, ⟨50, 0⟩⟩
      (by with_unfolding_all rfl) (by with_unfolding_all rfl) (by with_unfolding_all rfl)
  · exact (claim1_amended [⟨"A2", ⟨1000, 0⟩, ⟨0, 0⟩⟩, ⟨"B2", ⟨0, 0⟩, ⟨3, 0⟩⟩] 0 1 100 5 false
      "W2" ⟨"A2", ⟨1000, 0⟩, ⟨0, 0⟩⟩ rfl).2.2 ⟨"B2", ⟨0, 0⟩, ⟨3, 0⟩⟩
      (by with_unfolding_all rfl) (by with_unfolding_all rfl) (by with_unfolding_all rfl)

/-- Claim C2, amended: the cash-sufficiency check fails exactly when
`payer.cash - netAmount < payer.min_balance` (the account carries a
minimum-balance floor, not a credit limit); in that case the available cash is
`payer.cash - payer.min_balance` with no clamping, the report is skipped with
a `SettlementSkipped` event and no mutation when that is not positive, and
otherwise the net amount becomes the available cash, the quantity becomes
`int(netAmount / price)` and the report is marked adjusted. -/
theorem claim2_amended :
    (∀ (p : Institution) (net : ℚ),
      p.cash_account.check_balance net = false ↔
        p.cash_account.balance - net < p.cash_account.min_balance) ∧
    (∀ (insts : List Institution) (r : PositioningReport) (p : Institution),
      insts.get? r.payer = some p →
      p.cash_account.check_balance r.net_amount = false →
      p.cash_account.balance - p.cash_account.min_balance ≤ 0 →
      settleOne insts r = .ok ⟨insts, none, [], [.settlementSkipped r.transaction_id], []⟩) ∧
    (∀ (p : Institution) (net q price : ℚ) (tx : String),
      p.cash_account.check_balance net = false →
      0 < p.cash_account.balance - p.cash_account.min_balance →
      price ≠ 0 →
      cashPhase p net q price tx =
        .ok (.cont (p.cash_account.balance - p.cash_account.min_balance)
          ((pyint ((p.cash_account.balance - p.cash_account.min_balance) / price) : ℤ) : ℚ)
          true)) := by
  refine ⟨?_, ?_, ?_⟩
  · intro p net
    unfold Account.check_balance
    rw [decide_eq_false_iff_not, not_le]
  · intro insts r p hp hw hle
    exact settleOne_skipCash insts r p hp hw hle
  · intro p net q price tx hw hgt hpr
    exact cashPhase_adjust p net q price tx hw hgt hpr

theorem claim2_witness :
    ((1000000:ℚ) - 995000 < 10000) ∧
    (settleOne [⟨"W2", ⟨5, 10⟩, ⟨0, 0⟩⟩] ⟨"TW2", 0, 0, 2, 100⟩ =
      .ok ⟨[⟨"W2", ⟨5, 10⟩, ⟨0, 0⟩⟩], none, [], [.settlementSkipped "TW2"], []⟩) ∧
    (cashPhase ⟨"W3", ⟨1000000, 10000⟩, ⟨0, 0⟩⟩ 995000 10 99500 "TW3" =
      .ok (.cont 990000 9 true)) := by
  refine ⟨?_, ?_, ?_⟩
  · exact (claim2_amended.1 ⟨"W3", ⟨1000000, 10000⟩, ⟨0, 0⟩⟩ 995000).mp
      (by with_unfolding_all rfl)
  · exact claim2_amended.2.1 [⟨"W2", ⟨5, 10⟩, ⟨0, 0⟩⟩] ⟨"TW2", 0, 0, 2, 100⟩
      ⟨"W2", ⟨5, 10⟩, ⟨0, 0⟩⟩ rfl (by with_unfolding_all rfl) (by norm_num)
  · have h := claim2_amended.2.2 ⟨"W3", ⟨1000000, 10000⟩, ⟨0, 0⟩⟩ 995000 10 99500 "TW3"
      (by with_unfolding_all rfl) (by norm_num) (by norm_num)
    rw [h]
    with_unfolding_all rfl

/-- Claim C3, amended: after a Matching step the matched-pairs table holds
exactly those entries of the inserted table whose two slots are both filled
with non-canceled legs; an incomplete pair (one leg only) is discarded rather
than kept pending, and the validated queue is emptied. -/
theorem claim3_amended (st : EState) (e : String × Pair) :
    (e ∈ (matchingStep st).matched_pairs ↔
      e ∈ (st.validated.filter (fun si => si.status != "Canceled")).foldl mpInsertInstr
            st.matched_pairs ∧
        ∃ a b, e.2.payment = some a ∧ e.2.security = some b ∧
          a.status ≠ "Canceled" ∧ b.status ≠ "Canceled") ∧
    (matchingStep st).validated = [] := by
  constructor
  · show e ∈ List.filter _ _ ↔ _
    rw [List.mem_filter, pairComplete_iff]
  · rfl

theorem claim3_witness :
    (("TX-1", (⟨some ⟨"TX-1-P", "TX-1", "Payment", "SEC-XYZ", 5, 2, 0, 1, "New"⟩,
        some ⟨"TX-1-S", "TX-1", "Security", "SEC-XYZ", 5, 2, 1, 0, "New"⟩⟩ : Pair)) ∈
      (matchingStep ⟨[], [], [⟨"TX-1-P", "TX-1", "Payment", "SEC-XYZ", 5, 2, 0, 1, "New"⟩,
        ⟨"TX-1-S", "TX-1", "Security", "SEC-XYZ", 5, 2, 1, 0, "New"⟩],
        [], [], [], [], [], [], 0⟩).matched_pairs) ∧
    (matchingStep ⟨[], [], [⟨"TX-1-P", "TX-1", "Payment", "SEC-XYZ", 5, 2, 0, 1, "New"⟩,
        ⟨"TX-1-S", "TX-1", "Security", "SEC-XYZ", 5, 2, 1, 0, "New"⟩],
        [], [], [], [], [], [], 0⟩).validated = [] := by
  constructor
  · refine (claim3_amended ⟨[], [], [⟨"TX-1-P", "TX-1", "Payment", "SEC-XYZ", 5, 2, 0, 1, "New"⟩,
        ⟨"TX-1-S", "TX-1", "Security", "SEC-XYZ", 5, 2, 1, 0, "New"⟩],
        [], [], [], [], [], [], 0⟩ _).1.mpr
      ⟨of_decide_eq_true (by with_unfolding_all rfl),
        ⟨"TX-1-P", "TX-1", "Payment", "SEC-XYZ", 5, 2, 0, 1, "New"⟩,
        ⟨"TX-1-S", "TX-1", "Security", "SEC-XYZ", 5, 2, 1, 0, "New"⟩,
        rfl, rfl, by decide, by decide⟩
  · exact (claim3_amended ⟨[], [], [⟨"TX-1-P", "TX-1", "Payment", "SEC-XYZ", 5, 2, 0, 1, "New"⟩,
        ⟨"TX-1-S", "TX-1", "Security", "SEC-XYZ", 5, 2, 1, 0, "New"⟩],
        [], [], [], [], [], [], 0⟩ ("X", ⟨none, none⟩)).2

/-- Claim C5, amended: every non-failing settlement attempt of the euroclear
Settlement stage (one that emits a confirmation) leaves total cash and total
security holdings unchanged; the mesa `TransactionAgent.settle`, whose ledger
updates return the signed requested amount, can never reach `"Settled"` for a
nonnegative transaction amount (its mutating attempts end `"Failed"`), and for
negative amounts its successful attempts create value, as the counterexample
shows. -/
theorem claim5_amended :
    (∀ (insts : List Institution) (r : PositioningReport) (o : SettleOut),
      settleOne insts r = .ok o → o.conf.isSome = true →
      totalCash o.insts = totalCash insts ∧ totalSec o.insts = totalSec insts) ∧
    (∀ (accs : List AccountAgent) (t : TransactionAgentE)
      (res : List AccountAgent × TransactionAgentE),
      0 ≤ t.amount → t.state ≠ "Settled" →
      TransactionAgent.settle accs t = .ok res → res.2.state ≠ "Settled") := by
  constructor
  · exact fun insts r o h hc => settleOne_conserves insts r o h hc
  · intro accs t res hamt hstate h
    unfold TransactionAgent.settle at h
    split_ifs at h with hs hck
    · cases hb : accs.get? t.buyer.accountIdx with
      | none => rw [hb] at h; exact absurd h (by simp)
      | some ab =>
        rw [hb] at h
        dsimp only at h
        cases hsl : (accs.set t.buyer.accountIdx (ab.updateCashBalance (-t.amount)).1).get?
            t.seller.accountIdx with
        | none => rw [hsl] at h; exact absurd h (by simp)
        | some asl =>
          rw [hsl] at h
          dsimp only at h
          rw [if_neg] at h
          · injection h with h1
            rw [← h1]
            show ("Failed" : String) ≠ "Settled"
            decide
          · intro hcon
            rcases updateCashBalance_snd ab (-t.amount) with hz | hz
            · rw [hz] at hcon
              exact absurd hcon.1 (by norm_num)
            · rw [hz] at hcon
              have := hcon.1
              linarith
    · cases hc1 : InstructionAgent.createChildren accs t.buyer with
      | error e =>
        rw [hc1] at h
        exact absurd h (by simp)
      | ok accs1 =>
        rw [hc1] at h
        dsimp only at h
        cases hc2 : InstructionAgent.createChildren accs1 t.seller with
        | error e =>
          rw [hc2] at h
          exact absurd h (by simp)
        | ok accs2 =>
          rw [hc2] at h
          dsimp only at h
          injection h with h1
          rw [← h1]
          show ("Partially_Settled" : String) ≠ "Settled"
          decide
    · injection h with h1
      rw [← h1]
      exact hstate

theorem claim5_witness :
    (totalCash [⟨"A", ⟨900, 0⟩, ⟨5, 0⟩⟩, ⟨"B", ⟨100, 0⟩, ⟨45, 0⟩⟩] =
        totalCash [⟨"A", ⟨1000, 0⟩, ⟨0, 0⟩⟩, ⟨"B", ⟨0, 0⟩, ⟨50, 0⟩⟩] ∧
      totalSec [⟨"A", ⟨900, 0⟩, ⟨5, 0⟩⟩, ⟨"B", ⟨100, 0⟩, ⟨45, 0⟩⟩] =
        totalSec [⟨"A", ⟨1000, 0⟩, ⟨0, 0⟩⟩, ⟨"B", ⟨0, 0⟩, ⟨50, 0⟩⟩]) ∧
    ((([⟨70, 0, []⟩, ⟨0, 0, [("bond", 20)]⟩] : List AccountAgent),
        (⟨"Failed", ⟨"bond", 0, "pending", "buyer", 0⟩, ⟨"bond", 0, "pending", "seller", 1⟩,
          30⟩ : TransactionAgentE)).2.state ≠ "Settled") := by
  constructor
  · exact claim5_amended.1 [⟨"A", ⟨1000, 0⟩, ⟨0, 0⟩⟩, ⟨"B", ⟨0, 0⟩, ⟨50, 0⟩⟩]
      ⟨"TX-5w", 0, 1, 5, 100⟩
      ⟨[⟨"A", ⟨900, 0⟩, ⟨5, 0⟩⟩, ⟨"B", ⟨100, 0⟩, ⟨45, 0⟩⟩],
        some ⟨"TX-5w", "Full", 5, 100⟩,
        [.debitCash 0 100, .creditSec 0 5, .creditCash 1 100, .debitSec 1 5],
        [.settledTransaction "TX-5w"],
        [.settlementConfirmation 0 "TX-5w" "Full", .settlementConfirmation 1 "TX-5w" "Full"]⟩
      (by with_unfolding_all rfl) rfl
  · exact claim5_amended.2 [⟨100, 0, []⟩, ⟨0, 0, [("bond", 50)]⟩]
      ⟨"Matched", ⟨"bond", 0, "pending", "buyer", 0⟩, ⟨"bond", 0, "pending", "seller", 1⟩, 30⟩
      ([⟨70, 0, []⟩, ⟨0, 0, [("bond", 20)]⟩],
        ⟨"Failed", ⟨"bond", 0, "pending", "buyer", 0⟩, ⟨"bond", 0, "pending", "seller", 1⟩, 30⟩)
      (by norm_num) (by decide) (by with_unfolding_all rfl)

/-- Claim C7, amended: the Settlement stage never consults the
partial-settlement policy.  Opting out records `allow_partial = false` on the
mesa institution, but no settlement routine reads the flag: an underfunded
payer whose available cash `balance - min_balance` is not positive is skipped
with a `SettlementSkipped` event and no mutation, and one whose available cash
is positive proceeds down the adjusted path, any resulting confirmation being
`Partial` — regardless of any opt-out. -/
theorem claim7_amended :
    (∀ i : InstitutionAgentM, i.partialAllowed = true →
      (optOutPartialSettlement i).partialAllowed = false) ∧
    (∀ (insts : List Institution) (r : PositioningReport) (p : Institution),
      insts.get? r.payer = some p →
      p.cash_account.check_balance r.net_amount = false →
      p.cash_account.balance - p.cash_account.min_balance ≤ 0 →
      settleOne insts r = .ok ⟨insts, none, [], [.settlementSkipped r.transaction_id], []⟩) ∧
    (∀ (insts : List Institution) (r : PositioningReport) (p : Institution) (net1 q1 : ℚ)
      (o : SettleOut) (c : SettlementConfirmation),
      insts.get? r.payer = some p →
      cashPhase p r.net_amount r.quantity
        (if r.quantity ≠ 0 then r.net_amount / r.quantity else 0) r.transaction_id =
        .ok (.cont net1 q1 true) →
      settleOne insts r = .ok o → o.conf = some c → c.settlement_status = "Partial") := by
  refine ⟨?_, ?_, ?_⟩
  · intro i hi
    unfold optOutPartialSettlement
    rw [hi]
    simp
  · intro insts r p hp hw hle
    exact settleOne_skipCash insts r p hp hw hle
  · intro insts r p net1 q1 o c hp hcash h hc
    unfold settleOne at h
    rw [hp] at h
    dsimp only at h
    rw [hcash] at h
    cases hd : insts.get? r.deliverer with
    | none => rw [hd] at h; exact absurd h (by simp)
    | some d =>
      rw [hd] at h
      dsimp only at h
      cases hsp : securityPhase d net1 q1
          (if r.quantity ≠ 0 then r.net_amount / r.quantity else 0) true
          r.transaction_id with
      | skip ev =>
        rw [hsp] at h
        injection h with h1
        subst h1
        exact absurd hc (by simp)
      | cont net2 q2 adj2 =>
        rw [hsp] at h
        have hadj : adj2 = true :=
          securityPhase_adjusted d net1 q1 _ r.transaction_id net2 q2 adj2 hsp
        have hst := transfer_conf_status insts r.payer r.deliverer net2 q2 adj2
          r.transaction_id o c h hc
        rw [hadj] at hst
        simpa using hst

theorem claim7_witness :
    ((optOutPartialSettlement ⟨true⟩).partialAllowed = false) ∧
    (settleOne [⟨"W7", ⟨3, 7⟩, ⟨0, 0⟩⟩] ⟨"TW7", 0, 0, 2, 50⟩ =
      .ok ⟨[⟨"W7", ⟨3, 7⟩, ⟨0, 0⟩⟩], none, [], [.settlementSkipped "TW7"], []⟩) ∧
    ((⟨"TX-7", "Partial", 4, 490000⟩ : SettlementConfirmation).settlement_status = "Partial") := by
  refine ⟨?_, ?_, ?_⟩
  · exact claim7_amended.1 ⟨true⟩ rfl
  · exact claim7_amended.2.1 [⟨"W7", ⟨3, 7⟩, ⟨0, 0⟩⟩] ⟨"TW7", 0, 0, 2, 50⟩
      ⟨"W7", ⟨3, 7⟩, ⟨0, 0⟩⟩ rfl (by with_unfolding_all rfl) (by norm_num)
  · exact claim7_amended.2.2
      [⟨"P7", ⟨500000, 10000⟩, ⟨10000, 100⟩⟩, ⟨"D7", ⟨1000000, 10000⟩, ⟨10000, 100⟩⟩]
      ⟨"TX-7", 0, 1, 6, 600000⟩ ⟨"P7", ⟨500000, 10000⟩, ⟨10000, 100⟩⟩ 490000 4
      ⟨[⟨"P7", ⟨10000, 10000⟩, ⟨10004, 100⟩⟩, ⟨"D7", ⟨1490000, 10000⟩, ⟨9996, 100⟩⟩],
        some ⟨"TX-7", "Partial", 4, 490000⟩,
        [.debitCash 0 490000, .creditSec 0 4, .creditCash 1 490000, .debitSec 1 4],
        [.settledTransaction "TX-7"],
        [.settlementConfirmation 0 "TX-7" "Partial", .settlementConfirmation 1 "TX-7" "Partial"]⟩
      ⟨"TX-7", "Partial", 4, 490000⟩ rfl (by with_unfolding_all rfl)
      (by with_unfolding_all rfl) rfl

/-! ## Validation-stage lemmas -/

theorem applyCancelList_cons (T : String) (Ts : List String) (si : SettlementInstruction) :
    applyCancelList (T :: Ts) si = applyCancelList Ts (cancelSI T si) := rfl

theorem cancelSI_tx (T : String) (si : SettlementInstruction) :
    (cancelSI T si).transaction_id = si.transaction_id := by
  unfold cancelSI
  split_ifs <;> rfl

theorem applyCancelList_tx (Ts : List String) (si : SettlementInstruction) :
    (applyCancelList Ts si).transaction_id = si.transaction_id := by
  induction Ts generalizing si with
  | nil => rfl
  | cons T Ts ih =>
    rw [applyCancelList_cons, ih, cancelSI_tx]

theorem cancelSI_keeps_canceled (T : String) (si : SettlementInstruction)
    (h : si.status = "Canceled") : (cancelSI T si).status = "Canceled" := by
  unfold cancelSI
  split_ifs with hc
  · rfl
  · exact h

theorem applyCancelList_keeps_canceled (Ts : List String) (si : SettlementInstruction)
    (h : si.status = "Canceled") : (applyCancelList Ts si).status = "Canceled" := by
  induction Ts generalizing si with
  | nil => exact h
  | cons T Ts ih =>
    rw [applyCancelList_cons]
    exact ih _ (cancelSI_keeps_canceled T si h)

theorem cancelSI_not_settled (T : String) (si : SettlementInstruction)
    (h : si.status ≠ "Settled") : (cancelSI T si).status ≠ "Settled" := by
  unfold cancelSI
  split_ifs with hc
  · show ("Canceled" : String) ≠ "Settled"
    decide
  · exact h

theorem cancelSI_cancels (T : String) (si : SettlementInstruction)
    (htx : si.transaction_id = T) (hst : si.status ≠ "Settled") :
    (cancelSI T si).status = "Canceled" := by
  unfold cancelSI
  split_ifs with hc
  · rfl
  · rw [not_and_or, not_and_or] at hc
    rcases hc with hc | hc | hc
    · exact absurd htx hc
    · rw [not_not] at hc
      exact hc
    · exact absurd hc (by simpa using hst)

theorem applyCancelList_cancels (Ts : List String) (T : String) (si : SettlementInstruction)
    (hT : T ∈ Ts) (htx : si.transaction_id = T) (hst : si.status ≠ "Settled") :
    (applyCancelList Ts si).status = "Canceled" := by
  induction Ts generalizing si with
  | nil => exact absurd hT (List.not_mem_nil T)
  | cons T2 Ts ih =>
    rw [applyCancelList_cons]
    rcases List.mem_cons.mp hT with h2 | h2
    · subst h2
      exact applyCancelList_keeps_canceled Ts _ (cancelSI_cancels T si htx hst)
    · by_cases hcc : (cancelSI T2 si).status = "Canceled"
      · exact applyCancelList_keeps_canceled Ts _ hcc
      · exact ih (cancelSI T2 si) h2 (by rw [cancelSI_tx]; exact htx)
          (cancelSI_not_settled T2 si hst)

theorem mem_cancelTxs (items : List QItem) (c : CancelInstruction)
    (hc : QItem.cancel c ∈ items) : c.transaction_id ∈ cancelTxs items := by
  unfold cancelTxs
  rw [List.mem_filterMap]
  exact ⟨.cancel c, hc, rfl⟩

theorem cancelTxs_cons_si (s : SettlementInstruction) (rest : List QItem) :
    cancelTxs (.si s :: rest) = cancelTxs rest := by
  unfold cancelTxs
  rw [List.filterMap_cons]

theorem cancelTxs_cons_cancel (c : CancelInstruction) (rest : List QItem) :
    cancelTxs (.cancel c :: rest) = c.transaction_id :: cancelTxs rest := by
  unfold cancelTxs
  rw [List.filterMap_cons]

theorem cancelTxs_mapSI (f : SettlementInstruction → SettlementInstruction) :
    ∀ l : List QItem, cancelTxs (l.map (QItem.mapSI f)) = cancelTxs l := by
  intro l
  induction l with
  | nil => rfl
  | cons it rest ih =>
    cases it with
    | si s =>
      show cancelTxs (.si (f s) :: rest.map (QItem.mapSI f)) = _
      rw [cancelTxs_cons_si, ih, cancelTxs_cons_si]
    | cancel c =>
      show cancelTxs (.cancel c :: rest.map (QItem.mapSI f)) = _
      rw [cancelTxs_cons_cancel, ih, cancelTxs_cons_cancel]

theorem filterMap_asSI_mapSI (f : SettlementInstruction → SettlementInstruction) :
    ∀ l : List QItem,
      (l.map (QItem.mapSI f)).filterMap QItem.asSI = (l.filterMap QItem.asSI).map f := by
  intro l
  induction l with
  | nil => rfl
  | cons it rest ih =>
    cases it with
    | si s =>
      show List.filterMap QItem.asSI (.si (f s) :: rest.map (QItem.mapSI f)) = _
      rw [List.filterMap_cons, List.filterMap_cons]
      simp only [QItem.asSI, List.map_cons]
      rw [ih]
    | cancel c =>
      show List.filterMap QItem.asSI (.cancel c :: rest.map (QItem.mapSI f)) = _
      rw [List.filterMap_cons, List.filterMap_cons]
      simp only [QItem.asSI]
      rw [ih]

theorem processCancels_remaining (acc : List SettlementInstruction) (rest : List QItem)
    (vd : List SettlementInstruction) (mp : List (String × Pair)) (lg : List Event) :
    (processCancels acc rest vd mp lg).1 =
      (acc ++ rest.filterMap QItem.asSI).map (applyCancelList (cancelTxs rest)) := by
  induction acc, rest, vd, mp, lg using processCancels.induct with
  | case1 acc vd mp lg =>
    simp only [processCancels, cancelTxs, List.filterMap_nil, List.append_nil]
    exact (List.map_id acc).symm
  | case2 acc s rest2 vd mp lg ih =>
    rw [processCancels, ih, cancelTxs_cons_si]
    simp [List.filterMap_cons, QItem.asSI]
  | case3 acc c rest2 vd mp lg ih =>
    rw [processCancels, ih, cancelTxs_mapSI, filterMap_asSI_mapSI, cancelTxs_cons_cancel]
    rw [← List.map_append, List.map_map]
    rw [List.filterMap_cons]
    rfl

theorem processCancels_validated (acc : List SettlementInstruction) (rest : List QItem)
    (vd : List SettlementInstruction) (mp : List (String × Pair)) (lg : List Event) :
    (processCancels acc rest vd mp lg).2.1 = vd.map (applyCancelList (cancelTxs rest)) := by
  induction acc, rest, vd, mp, lg using processCancels.induct with
  | case1 acc vd mp lg =>
    simp only [processCancels, cancelTxs, List.filterMap_nil]
    exact (List.map_id vd).symm
  | case2 acc s rest2 vd mp lg ih =>
    rw [processCancels, ih, cancelTxs_cons_si]
  | case3 acc c rest2 vd mp lg ih =>
    rw [processCancels, ih, cancelTxs_mapSI, cancelTxs_cons_cancel, List.map_map]
    rfl

theorem processCancels_pairs (acc : List SettlementInstruction) (rest : List QItem)
    (vd : List SettlementInstruction) (mp : List (String × Pair)) (lg : List Event) :
    ∀ e ∈ (processCancels acc rest vd mp lg).2.2.1,
      e ∈ mp ∧ ¬ e.1 ∈ cancelTxs rest := by
  induction acc, rest, vd, mp, lg using processCancels.induct with
  | case1 acc vd mp lg =>
    intro e he
    rw [processCancels] at he
    exact ⟨he, by simp [cancelTxs]⟩
  | case2 acc s rest2 vd mp lg ih =>
    intro e he
    rw [processCancels] at he
    rw [cancelTxs_cons_si]
    exact ih e he
  | case3 acc c rest2 vd mp lg ih =>
    intro e he
    rw [processCancels] at he
    have h2 := ih e he
    rw [cancelTxs_mapSI] at h2
    rcases h2 with ⟨hmem, hnot⟩
    rw [List.mem_filter] at hmem
    rcases hmem with ⟨hmp, hne⟩
    refine ⟨hmp, ?_⟩
    rw [cancelTxs_cons_cancel, List.mem_cons]
    rintro (h | h)
    · exact absurd h (by simpa using hne)
    · exact hnot h

theorem validateLoop_validated (rem : List SettlementInstruction) :
    (validateLoop rem).1 =
      rem.filter (fun si => si.status != "Canceled" && si.validate) := by
  induction rem with
  | nil => rfl
  | cons si rest ih =>
    rw [validateLoop]
    split_ifs with h1 h2
    · rw [List.filter_cons]
      simp only [h1, ih]
      simp
    · rw [List.filter_cons]
      simp only [ih]
      simp [h1, h2]
    · rw [List.filter_cons]
      simp only [ih]
      simp [h1, eq_false_of_ne_true h2]

theorem validateLoop_messages (rem : List SettlementInstruction) :
    (validateLoop rem).2.1 =
      rem.filterMap (fun si => if si.status = "Canceled" then none
        else some (Msg.validationResult si.sendingInstitution si.instruction_id
          si.validate)) := by
  induction rem with
  | nil => rfl
  | cons si rest ih =>
    rw [validateLoop]
    split_ifs with h1 h2
    · simp only [List.filterMap_cons, if_pos h1, ih]
    · simp only [List.filterMap_cons, if_neg h1, ih, h2]
    · simp only [List.filterMap_cons, if_neg h1, ih, eq_false_of_ne_true h2]

theorem mem_of_mem_filterMap_asSI (l : List QItem) (si : SettlementInstruction)
    (h : si ∈ l.filterMap QItem.asSI) : QItem.si si ∈ l := by
  rw [List.mem_filterMap] at h
  rcases h with ⟨it, hit, he⟩
  cases it with
  | si s =>
    simp only [QItem.asSI, Option.some.injEq] at he
    rw [← he]
    exact hit
  | cancel c => simp [QItem.asSI] at he

theorem validationStep_fields (st : EState) :
    (validationStep st).instructions = [] ∧
    (validationStep st).validated =
      st.validated.map (applyCancelList (cancelTxs st.instructions)) ++
        (postCancelIncoming st).filter (fun si => si.status != "Canceled" && si.validate) ∧
    (validationStep st).messages = st.messages ++
      (postCancelIncoming st).filterMap
        (fun si => if si.status = "Canceled" then none
          else some (Msg.validationResult si.sendingInstitution si.instruction_id
            si.validate)) ∧
    (∀ e ∈ (validationStep st).matched_pairs,
      e ∈ st.matched_pairs ∧ ¬ e.1 ∈ cancelTxs st.instructions) ∧
    (validationStep st).clearing_reports = st.clearing_reports ∧
    (validationStep st).positioning_reports = st.positioning_reports ∧
    (validationStep st).settlement_confirmations = st.settlement_confirmations ∧
    (validationStep st).insts = st.insts := by
  unfold validationStep
  dsimp only
  refine ⟨rfl, ?_, ?_, ?_, rfl, rfl, rfl, rfl⟩
  · rw [processCancels_validated, validateLoop_validated, processCancels_remaining]
    unfold postCancelIncoming
    rw [List.nil_append]
  · rw [validateLoop_messages, processCancels_remaining]
    unfold postCancelIncoming
    rw [List.nil_append]
  · intro e he
    exact processCancels_pairs [] st.instructions st.validated st.matched_pairs st.log e he

/-- Claim C9: in the Validation stage every pending cancellation is processed
before any new instruction is validated in the same tick (an instruction whose
transaction has a pending cancel can only appear Canceled in the validated
queue afterwards, never newly validated); a remaining instruction is valid iff
its quantity and price are positive; valid instructions join the validated
queue with a Valid notice to the sending institution, invalid ones are dropped
with an Invalid notice, and Canceled ones are skipped without any notice. -/
theorem validationStep_cancels (st : EState) (c : CancelInstruction)
    (hc : QItem.cancel c ∈ st.instructions)
    (hns1 : ∀ si : SettlementInstruction, QItem.si si ∈ st.instructions →
      si.status ≠ "Settled")
    (hns2 : ∀ si ∈ st.validated, si.status ≠ "Settled") :
    ∀ si' ∈ (validationStep st).validated,
      si'.transaction_id = c.transaction_id → si'.status = "Canceled" := by
  obtain ⟨f1, f2, f3, f4, f5, f6, f7, f8⟩ := validationStep_fields st
  intro si' hmem htx
  have hT : c.transaction_id ∈ cancelTxs st.instructions :=
    mem_cancelTxs st.instructions c hc
  rw [f2] at hmem
  rcases List.mem_append.mp hmem with hmem | hmem
  · rcases List.mem_map.mp hmem with ⟨si0, hsi0, he⟩
    rw [← he]
    refine applyCancelList_cancels _ c.transaction_id si0 hT ?_ (hns2 si0 hsi0)
    rw [← applyCancelList_tx (cancelTxs st.instructions) si0, he]
    exact htx
  · rw [List.mem_filter] at hmem
    rcases hmem with ⟨hmem, hpred⟩
    unfold postCancelIncoming at hmem
    rcases List.mem_map.mp hmem with ⟨si0, hsi0, he⟩
    have hsi0m : QItem.si si0 ∈ st.instructions :=
      mem_of_mem_filterMap_asSI st.instructions si0 hsi0
    have hcanc : (applyCancelList (cancelTxs st.instructions) si0).status = "Canceled" := by
      refine applyCancelList_cancels _ c.transaction_id si0 hT ?_ (hns1 si0 hsi0m)
      rw [← applyCancelList_tx (cancelTxs st.instructions) si0, he]
      exact htx
    rw [he] at hcanc
    rw [hcanc] at hpred
    simp at hpred

theorem claim9_theorem (st : EState)
    (hns1 : ∀ si : SettlementInstruction, QItem.si si ∈ st.instructions →
      si.status ≠ "Settled")
    (hns2 : ∀ si ∈ st.validated, si.status ≠ "Settled") :
    (∀ si : SettlementInstruction, si.validate = true ↔ 0 < si.quantity ∧ 0 < si.price) ∧
    ((validationStep st).validated =
      st.validated.map (applyCancelList (cancelTxs st.instructions)) ++
        (postCancelIncoming st).filter (fun si => si.status != "Canceled" && si.validate)) ∧
    ((validationStep st).messages = st.messages ++
      (postCancelIncoming st).filterMap
        (fun si => if si.status = "Canceled" then none
          else some (Msg.validationResult si.sendingInstitution si.instruction_id
            si.validate))) ∧
    ((validationStep st).instructions = []) ∧
    (∀ (c : CancelInstruction) (si' : SettlementInstruction),
      QItem.cancel c ∈ st.instructions → si' ∈ (validationStep st).validated →
      si'.transaction_id = c.transaction_id → si'.status = "Canceled") := by
  obtain ⟨f1, f2, f3, f4, f5, f6, f7, f8⟩ := validationStep_fields st
  refine ⟨?_, f2, f3, f1, ?_⟩
  · intro si
    unfold SettlementInstruction.validate
    rw [Bool.and_eq_true, decide_eq_true_eq, decide_eq_true_eq]
  · intro c si' hc hmem htx
    exact validationStep_cancels st c hc hns1 hns2 si' hmem htx

theorem claim9_witness :
    (SettlementInstruction.validate ⟨"B9", "TX-10", "Security", "SEC", 5, 2, 1, 0, "New"⟩ =
      true) ∧
    ((⟨"V9", "TX-9", "Security", "SEC", 5, 2, 1, 0, "Canceled"⟩ :
      SettlementInstruction).status = "Canceled") := by
  have hns1 : ∀ si : SettlementInstruction,
      QItem.si si ∈ [QItem.cancel ⟨"C1", "TX-9", 0⟩,
        .si ⟨"A9", "TX-9", "Payment", "SEC", 5, 2, 0, 1, "New"⟩,
        .si ⟨"B9", "TX-10", "Security", "SEC", 5, 2, 1, 0, "New"⟩] →
      si.status ≠ "Settled" := by
    intro si h
    simp only [List.mem_cons, List.not_mem_nil, or_false] at h
    rcases h with h | h | h
    · exact QItem.noConfusion h
    · injection h with h2
      rw [h2]
      decide
    · injection h with h2
      rw [h2]
      decide
  have hns2 : ∀ si ∈ [(⟨"V9", "TX-9", "Security", "SEC", 5, 2, 1, 0, "New"⟩ :
      SettlementInstruction)], si.status ≠ "Settled" := by
    intro si h
    simp only [List.mem_singleton] at h
    rw [h]
    decide
  have hth := claim9_theorem
    ⟨[], [QItem.cancel ⟨"C1", "TX-9", 0⟩,
        .si ⟨"A9", "TX-9", "Payment", "SEC", 5, 2, 0, 1, "New"⟩,
        .si ⟨"B9", "TX-10", "Security", "SEC", 5, 2, 1, 0, "New"⟩],
      [⟨"V9", "TX-9", "Security", "SEC", 5, 2, 1, 0, "New"⟩], [], [], [], [], [], [], 0⟩
    hns1 hns2
  constructor
  · exact (hth.1 ⟨"B9", "TX-10", "Security", "SEC", 5, 2, 1, 0, "New"⟩).mpr
      ⟨by norm_num, by norm_num⟩
  · exact hth.2.2.2.2 ⟨"C1", "TX-9", 0⟩
      ⟨"V9", "TX-9", "Security", "SEC", 5, 2, 1, 0, "Canceled"⟩
      (List.mem_cons_self _ _) (of_decide_eq_true (by with_unfolding_all rfl)) rfl

/-! ## Cancellation deadness and its preservation by the pipeline stages -/

theorem mem_mpUpdate (mp : List (String × Pair)) (tx : String) (f : Pair → Pair) :
    ∀ e ∈ mpUpdate mp tx f, ∃ e0 ∈ mp, e.1 = e0.1 := by
  induction mp with
  | nil => intro e he; exact absurd he (List.not_mem_nil e)
  | cons hd tl ih =>
    intro e he
    unfold mpUpdate at he
    split_ifs at he with hk
    · rcases List.mem_cons.mp he with he | he
      · exact ⟨hd, List.mem_cons_self _ _, by rw [he]⟩
      · exact ⟨e, List.mem_cons_of_mem _ he, rfl⟩
    · rcases List.mem_cons.mp he with he | he
      · exact ⟨hd, List.mem_cons_self _ _, by rw [he]⟩
      · rcases ih e he with ⟨e0, he0, hkey⟩
        exact ⟨e0, List.mem_cons_of_mem _ he0, hkey⟩

theorem mem_mpInsertInstr (mp : List (String × Pair)) (si : SettlementInstruction) :
    ∀ e ∈ mpInsertInstr mp si, (∃ e0 ∈ mp, e.1 = e0.1) ∨ e.1 = si.transaction_id := by
  intro e he
  unfold mpInsertInstr at he
  split_ifs at he with hcont
  · rcases mem_mpUpdate mp si.transaction_id _ e he with ⟨e0, he0, hkey⟩
    exact .inl ⟨e0, he0, hkey⟩
  · rcases mem_mpUpdate _ si.transaction_id _ e he with ⟨e0, he0, hkey⟩
    rcases List.mem_append.mp he0 with h0 | h0
    · exact .inl ⟨e0, h0, hkey⟩
    · rw [List.mem_singleton] at h0
      rw [h0] at hkey
      exact .inr hkey

theorem mem_foldl_mpInsertInstr (l : List SettlementInstruction) :
    ∀ (mp : List (String × Pair)) (e), e ∈ l.foldl mpInsertInstr mp →
      (∃ e0 ∈ mp, e.1 = e0.1) ∨ ∃ si ∈ l, e.1 = si.transaction_id := by
  induction l with
  | nil =>
    intro mp e he
    exact .inl ⟨e, he, rfl⟩
  | cons si rest ih =>
    intro mp e he
    rw [List.foldl_cons] at he
    rcases ih (mpInsertInstr mp si) e he with h | h
    · rcases h with ⟨e0, he0, hkey⟩
      rcases mem_mpInsertInstr mp si e0 he0 with h2 | h2
      · rcases h2 with ⟨e1, he1, hk1⟩
        exact .inl ⟨e1, he1, by rw [hkey, hk1]⟩
      · exact .inr ⟨si, List.mem_cons_self _ _, by rw [hkey, h2]⟩
    · rcases h with ⟨si2, hsi2, hk⟩
      exact .inr ⟨si2, List.mem_cons_of_mem _ hsi2, hk⟩

/-- The transaction `T` is dead in a model state: every settlement instruction
of `T` still in the incoming or validated queues is Canceled, and `T` appears
in no matched pair, clearing report or positioning report. -/
def deadTx (T : String) (st : EState) : Prop :=
  (∀ si : SettlementInstruction, QItem.si si ∈ st.instructions →
    si.transaction_id = T → si.status = "Canceled") ∧
  (∀ si ∈ st.validated, si.transaction_id = T → si.status = "Canceled") ∧
  (∀ e ∈ st.matched_pairs, e.1 ≠ T) ∧
  (∀ r ∈ st.clearing_reports, r.transaction_id ≠ T) ∧
  (∀ r ∈ st.positioning_reports, r.transaction_id ≠ T)

/-- The confirmations for transaction `T` present in a state. -/
def confsT (T : String) (st : EState) : List SettlementConfirmation :=
  st.settlement_confirmations.filter (fun cf => cf.transaction_id == T)

theorem validation_preserves_dead (T : String) (st : EState) (h : deadTx T st) :
    deadTx T (validationStep st) ∧ confsT T (validationStep st) = confsT T st := by
  obtain ⟨f1, f2, f3, f4, f5, f6, f7, f8⟩ := validationStep_fields st
  obtain ⟨d1, d2, d3, d4, d5⟩ := h
  refine ⟨⟨?_, ?_, ?_, ?_, ?_⟩, ?_⟩
  · intro si hsi htx
    rw [f1] at hsi
    exact absurd hsi (List.not_mem_nil _)
  · intro si' hmem htx
    rw [f2] at hmem
    rcases List.mem_append.mp hmem with hmem | hmem
    · rcases List.mem_map.mp hmem with ⟨si0, hsi0, he⟩
      have htx0 : si0.transaction_id = T := by
        rw [← applyCancelList_tx (cancelTxs st.instructions) si0, he]
        exact htx
      rw [← he]
      exact applyCancelList_keeps_canceled _ si0 (d2 si0 hsi0 htx0)
    · rw [List.mem_filter] at hmem
      rcases hmem with ⟨hmem, hpred⟩
      unfold postCancelIncoming at hmem
      rcases List.mem_map.mp hmem with ⟨si0, hsi0, he⟩
      have hsi0m := mem_of_mem_filterMap_asSI st.instructions si0 hsi0
      have htx0 : si0.transaction_id = T := by
        rw [← applyCancelList_tx (cancelTxs st.instructions) si0, he]
        exact htx
      rw [← he]
      exact applyCancelList_keeps_canceled _ si0 (d1 si0 hsi0m htx0)
  · intro e he
    rcases f4 e he with ⟨hmp, _⟩
    exact d3 e hmp
  · intro r hr
    rw [f5] at hr
    exact d4 r hr
  · intro r hr
    rw [f6] at hr
    exact d5 r hr
  · unfold confsT
    rw [f7]

theorem matching_preserves_dead (T : String) (st : EState) (h : deadTx T st) :
    deadTx T (matchingStep st) ∧ confsT T (matchingStep st) = confsT T st := by
  obtain ⟨d1, d2, d3, d4, d5⟩ := h
  refine ⟨⟨?_, ?_, ?_, d4, d5⟩, rfl⟩
  · intro si hsi htx
    exact d1 si hsi htx
  · intro si hsi
    exact absurd hsi (List.not_mem_nil _)
  · intro e he
    have he2 := List.mem_of_mem_filter he
    rcases mem_foldl_mpInsertInstr _ _ e he2 with h2 | h2
    · rcases h2 with ⟨e0, he0, hk⟩
      rw [hk]
      exact d3 e0 he0
    · rcases h2 with ⟨si, hsi, hk⟩
      rw [List.mem_filter] at hsi
      rcases hsi with ⟨hsiv, hpred⟩
      intro hcontra
      have hst := d2 si hsiv (by rw [← hk, hcontra])
      rw [hst] at hpred
      simp at hpred

theorem clearingLoop_reports (entries : List (String × Pair)) :
    ∀ (reports : List ClearingReport) (lg : List Event) (tot : ℚ)
      (out : List ClearingReport × List Event × ℚ),
      clearingLoop entries reports lg tot = .ok out →
      ∀ rep ∈ out.1, rep ∈ reports ∨ ∃ e ∈ entries, rep.transaction_id = e.1 := by
  induction entries with
  | nil =>
    intro reports lg tot out h rep hrep
    rw [clearingLoop] at h
    injection h with h1
    rw [← h1] at hrep
    exact .inl hrep
  | cons ent rest ih =>
    intro reports lg tot out h rep hrep
    obtain ⟨tx, pr⟩ := ent
    rw [clearingLoop] at h
    cases hpay : pr.payment with
    | none =>
      rw [hpay] at h
      cases hsec : pr.security with
      | none => rw [hsec] at h; exact absurd h (by simp)
      | some sec => rw [hsec] at h; exact absurd h (by simp)
    | some pay =>
      rw [hpay] at h
      cases hsec : pr.security with
      | none => rw [hsec] at h; exact absurd h (by simp)
      | some sec =>
        rw [hsec] at h
        dsimp only at h
        split_ifs at h with hcanc
        · rcases ih _ _ _ out h rep hrep with h2 | h2
          · exact .inl h2
          · rcases h2 with ⟨e, he, hk⟩
            exact .inr ⟨e, List.mem_cons_of_mem _ he, hk⟩
        · rcases ih _ _ _ out h rep hrep with h2 | h2
          · rcases List.mem_append.mp h2 with h3 | h3
            · exact .inl h3
            · rw [List.mem_singleton] at h3
              refine .inr ⟨(tx, pr), List.mem_cons_self _ _, ?_⟩
              rw [h3]
          · rcases h2 with ⟨e, he, hk⟩
            exact .inr ⟨e, List.mem_cons_of_mem _ he, hk⟩

theorem clearing_preserves_dead (T : String) (st st' : EState)
    (h : clearingStep st = .ok st') (hd : deadTx T st) :
    deadTx T st' ∧ confsT T st' = confsT T st := by
  obtain ⟨d1, d2, d3, d4, d5⟩ := hd
  unfold clearingStep at h
  cases hcl : clearingLoop st.matched_pairs st.clearing_reports st.log st.total_possible_net with
  | error e => rw [hcl] at h; exact absurd h (by simp)
  | ok r =>
    rw [hcl] at h
    dsimp only at h
    injection h with h1
    rw [← h1]
    refine ⟨⟨d1, d2, ?_, ?_, d5⟩, rfl⟩
    · intro e he
      exact absurd he (List.not_mem_nil e)
    · intro rep hrep
      rcases clearingLoop_reports st.matched_pairs st.clearing_reports st.log
          st.total_possible_net r hcl rep hrep with h2 | h2
      · exact d4 rep h2
      · rcases h2 with ⟨e, he, hk⟩
        rw [hk]
        exact d3 e he

theorem positioning_preserves_dead (T : String) (st : EState) (hd : deadTx T st) :
    deadTx T (positioningStep st) ∧ confsT T (positioningStep st) = confsT T st := by
  obtain ⟨d1, d2, d3, d4, d5⟩ := hd
  refine ⟨⟨d1, d2, d3, ?_, ?_⟩, rfl⟩
  · intro r hr
    exact absurd hr (List.not_mem_nil r)
  · intro r hr
    rcases List.mem_append.mp hr with h2 | h2
    · exact d5 r h2
    · rcases List.mem_map.mp h2 with ⟨cr, hcr, he⟩
      rw [← he]
      exact d4 cr hcr

theorem settleLoop_confs (T : String) (reports : List PositioningReport) :
    ∀ (insts : List Institution) (confs : List SettlementConfirmation)
      (lg : List Event) (ms : List Msg)
      (out : List Institution × List SettlementConfirmation × List Event × List Msg),
      settleLoop insts reports confs lg ms = .ok out →
      (∀ r ∈ reports, r.transaction_id ≠ T) →
      out.2.1.filter (fun cf => cf.transaction_id == T) =
        confs.filter (fun cf => cf.transaction_id == T) := by
  induction reports with
  | nil =>
    intro insts confs lg ms out h hrep
    rw [settleLoop] at h
    injection h with h1
    rw [← h1]
  | cons r rest ih =>
    intro insts confs lg ms out h hrep
    rw [settleLoop] at h
    cases hso : settleOne insts r with
    | error e => rw [hso] at h; exact absurd h (by simp)
    | ok o =>
      rw [hso] at h
      dsimp only at h
      have h2 := ih o.insts (confs ++ o.conf.toList) _ _ out h
        (fun r2 hr2 => hrep r2 (List.mem_cons_of_mem _ hr2))
      rw [h2, List.filter_append]
      have hconf : o.conf.toList.filter (fun cf => cf.transaction_id == T) = [] := by
        cases hc : o.conf with
        | none => rfl
        | some c =>
          have htx := settleOne_conf_tx insts r o c hso hc
          have hne : (c.transaction_id == T) = false := by
            rw [htx]
            exact beq_eq_false_iff_ne.mpr (hrep r (List.mem_cons_self _ _))
          simp [Option.toList, List.filter, hne]
      rw [hconf, List.append_nil]

theorem settlement_preserves_dead (T : String) (st st' : EState)
    (h : settlementStep st = .ok st') (hd : deadTx T st) :
    deadTx T st' ∧ confsT T st' = confsT T st := by
  obtain ⟨d1, d2, d3, d4, d5⟩ := hd
  unfold settlementStep at h
  cases hsl : settleLoop st.insts st.positioning_reports st.settlement_confirmations st.log
      st.messages with
  | error e => rw [hsl] at h; exact absurd h (by simp)
  | ok r =>
    rw [hsl] at h
    dsimp only at h
    injection h with h1
    rw [← h1]
    refine ⟨⟨d1, d2, d3, d4, ?_⟩, ?_⟩
    · intro rep hrep
      exact absurd hrep (List.not_mem_nil rep)
    · unfold confsT
      exact settleLoop_confs T st.positioning_reports st.insts st.settlement_confirmations
        st.log st.messages r hsl d5

theorem stage_preserves_dead (T : String) (s : Stage) (st st' : EState)
    (h : stageStep s st = .ok st') (hd : deadTx T st) :
    deadTx T st' ∧ confsT T st' = confsT T st := by
  cases s with
  | validation =>
    injection h with h1
    rw [← h1]
    exact validation_preserves_dead T st hd
  | matching =>
    injection h with h1
    rw [← h1]
    exact matching_preserves_dead T st hd
  | clearing => exact clearing_preserves_dead T st st' h hd
  | positioning =>
    injection h with h1
    rw [← h1]
    exact positioning_preserves_dead T st hd
  | settlement => exact settlement_preserves_dead T st st' h hd

theorem runStages_preserves_dead (T : String) (ss : List Stage) :
    ∀ (st st' : EState), runStages ss st = .ok st' → deadTx T st →
      deadTx T st' ∧ confsT T st' = confsT T st := by
  induction ss with
  | nil =>
    intro st st' h hd
    rw [runStages] at h
    injection h with h1
    rw [← h1]
    exact ⟨hd, rfl⟩
  | cons s rest ih =>
    intro st st' h hd
    rw [runStages] at h
    cases hs : stageStep s st with
    | error e => rw [hs] at h; exact absurd h (by simp)
    | ok st2 =>
      rw [hs] at h
      dsimp only at h
      obtain ⟨hd2, hc2⟩ := stage_preserves_dead T s st st2 hs hd
      obtain ⟨hd3, hc3⟩ := ih st2 st' h hd2
      exact ⟨hd3, by rw [hc3, hc2]⟩

theorem validation_establishes_dead (st : EState) (T : String) (c : CancelInstruction)
    (hc : QItem.cancel c ∈ st.instructions) (hT : c.transaction_id = T)
    (hns1 : ∀ si : SettlementInstruction, QItem.si si ∈ st.instructions →
      si.status ≠ "Settled")
    (hns2 : ∀ si ∈ st.validated, si.status ≠ "Settled")
    (hcl : ∀ r ∈ st.clearing_reports, r.transaction_id ≠ T)
    (hpos : ∀ r ∈ st.positioning_reports, r.transaction_id ≠ T) :
    deadTx T (validationStep st) ∧ confsT T (validationStep st) = confsT T st := by
  obtain ⟨f1, f2, f3, f4, f5, f6, f7, f8⟩ := validationStep_fields st
  refine ⟨⟨?_, ?_, ?_, ?_, ?_⟩, ?_⟩
  · intro si hsi htx
    rw [f1] at hsi
    exact absurd hsi (List.not_mem_nil _)
  · intro si' hmem htx
    exact validationStep_cancels st c hc hns1 hns2 si' hmem (by rw [htx, hT])
  · intro e he
    rcases f4 e he with ⟨_, hnot⟩
    intro hcontra
    apply hnot
    rw [hcontra, ← hT]
    exact mem_cancelTxs st.instructions c hc
  · intro r hr
    rw [f5] at hr
    exact hcl r hr
  · intro r hr
    rw [f6] at hr
    exact hpos r hr
  · unfold confsT
    rw [f7]

/-- Claim C4, counterexample: a CancelInstruction for TX-4 is processed by the
Validation stage while a positioning report for TX-4 is already queued; the
Settlement stage still produces a settlement confirmation for TX-4 in a later
stage invocation, because cancellation never touches the clearing or
positioning report queues. -/
theorem claim4_counterexample :
    (QItem.cancel ⟨"C4", "TX-4", 0⟩ ∈
      (⟨[⟨"PA", ⟨1000, 0⟩, ⟨0, 0⟩⟩, ⟨"PB", ⟨0, 0⟩, ⟨50, 0⟩⟩],
        [QItem.cancel ⟨"C4", "TX-4", 0⟩], [], [], [],
        [⟨"TX-4", 0, 1, 5, 100⟩], [], [], [], 0⟩ : EState).instructions) ∧
    Except.map (fun st' => st'.settlement_confirmations.map (fun cf => cf.transaction_id))
      (runStages [.settlement]
        (validationStep ⟨[⟨"PA", ⟨1000, 0⟩, ⟨0, 0⟩⟩, ⟨"PB", ⟨0, 0⟩, ⟨50, 0⟩⟩],
          [QItem.cancel ⟨"C4", "TX-4", 0⟩], [], [], [],
          [⟨"TX-4", 0, 1, 5, 100⟩], [], [], [], 0⟩)) = .ok ["TX-4"] := by
  constructor
  · exact List.mem_cons_self _ _
  · with_unfolding_all rfl

/-- Claim C4, amended: if a CancelInstruction for transaction T is processed
by the Validation stage in tick N, and at that moment T has not yet progressed
to a clearing report or a positioning report, then no settlement confirmation
for T is ever produced in tick N or any later tick, under any sequence of
pipeline stage invocations, and no positioning report for T ever exists;
instructions of T sitting in the incoming, validated or matched-pairs queues
are canceled, but reports for T already in the clearing or positioning queues
are beyond the reach of cancellation and still settle. -/
theorem claim4_amended (st : EState) (T : String) (c : CancelInstruction)
    (hc : QItem.cancel c ∈ st.instructions) (hT : c.transaction_id = T)
    (hns1 : ∀ si : SettlementInstruction, QItem.si si ∈ st.instructions →
      si.status ≠ "Settled")
    (hns2 : ∀ si ∈ st.validated, si.status ≠ "Settled")
    (hcl : ∀ r ∈ st.clearing_reports, r.transaction_id ≠ T)
    (hpos : ∀ r ∈ st.positioning_reports, r.transaction_id ≠ T)
    (ss : List Stage) (st' : EState)
    (hrun : runStages ss (validationStep st) = .ok st') :
    confsT T st' = confsT T st ∧
    (∀ r ∈ st'.positioning_reports, r.transaction_id ≠ T) := by
  obtain ⟨hd0, hc0⟩ := validation_establishes_dead st T c hc hT hns1 hns2 hcl hpos
  obtain ⟨hd1, hc1⟩ := runStages_preserves_dead T ss (validationStep st) st' hrun hd0
  exact ⟨by rw [hc1, hc0], hd1.2.2.2.2⟩

theorem claim4_witness :
    (QItem.cancel ⟨"CW", "TX-W", 1⟩ ∈
      (⟨[], [QItem.cancel ⟨"CW", "TX-W", 1⟩], [], [], [], [], [], [], [], 0⟩ :
        EState).instructions) ∧
    (confsT "TX-W" ⟨[], [], [], [], [], [], [], [],
        [Event.processedCancellation "TX-W"], 0⟩ =
      confsT "TX-W" ⟨[], [QItem.cancel ⟨"CW", "TX-W", 1⟩], [], [], [], [], [], [], [], 0⟩ ∧
      ∀ r ∈ (⟨[], [], [], [], [], [], [], [],
        [Event.processedCancellation "TX-W"], 0⟩ : EState).positioning_reports,
        r.transaction_id ≠ "TX-W") := by
  refine ⟨List.mem_cons_self _ _, ?_⟩
  refine claim4_amended ⟨[], [QItem.cancel ⟨"CW", "TX-W", 1⟩], [], [], [], [], [], [], [], 0⟩
    "TX-W" ⟨"CW", "TX-W", 1⟩ (List.mem_cons_self _ _) rfl ?_ ?_ ?_ ?_
    [.matching, .settlement, .validation]
    ⟨[], [], [], [], [], [], [], [], [Event.processedCancellation "TX-W"], 0⟩
    (by with_unfolding_all rfl)
  · intro si h
    simp at h
  · intro si h
    exact absurd h (List.not_mem_nil si)
  · intro r h
    exact absurd h (List.not_mem_nil r)
  · intro r h
    exact absurd h (List.not_mem_nil r)
